import Mathlib

/-!
Verification development for the SESSalesResources repository.

Shallow embedding of two components:

* the SecureDataAPI CRUD gateway (src/azure-function/SecureDataAPI/index.js):
  role resolution from API keys, the static permission table, and the
  per-request handler for GET / POST / PUT / PATCH / DELETE / OPTIONS over a
  single JSON blob document;

* the offline LMP merge reconciler (the LMP Database Azure Updater inside
  src/scripts/api-key-setup.js): mergeMonthlyData and mergeHourlyData.

JavaScript values are modelled as follows: JSON values by the inductive
`Json`; JS objects by insertion-ordered association lists of string keys
(JS object literals and spreads keep first-insertion key order, later
writes overwrite in place); absent / undefined values by `Option`;
floating point numbers by rationals (the numeric operations used by the
source are comparisons, absolute difference and literal constants, which
are exact in the float range involved); `a === b` between a string and an
arbitrary value by `jsStrEq`; JS truthiness by `jsTruthy`.
-/

namespace SES

/-- JSON value, as produced by JSON.parse in the gateway. -/
inductive Json where
  | null : Json
  | bool (b : Bool) : Json
  | num (q : ℚ) : Json
  | str (s : String) : Json
  | arr (elems : List Json) : Json
  | obj (fields : List (String × Json)) : Json

/-- Lookup in a JS object modelled as an association list. JS objects
have unique keys, so first-match lookup is exact. -/
def alGet {β : Type} (db : List (String × β)) (k : String) : Option β :=
  (db.find? (fun p => p.1 == k)).map (·.2)

/-- Key assignment on a JS object: overwrite in place when the key
exists, append otherwise. On the unique-key association lists that model
JS objects this is exactly property assignment and object literal
override order. -/
def alSet {β : Type} : List (String × β) → String → β → List (String × β)
  | [], k, v => [(k, v)]
  | p :: ps, k, v => if p.1 == k then (k, v) :: ps else p :: alSet ps k v

/-- Field lookup on a JS value: property access o.k, giving none for
undefined (missing key or non-object receiver). -/
def getField : Json → String → Option Json
  | .obj fields, k => alGet fields k
  | _, _ => none

/-- JS strict equality test v === s against a known string s, where v is
an arbitrary (possibly undefined) value. -/
def jsStrEq (v : Option Json) (s : String) : Bool :=
  match v with
  | some (.str t) => t == s
  | _ => false

/-- JS truthiness of a JSON value (null, false, 0 and the empty string
are falsy). -/
def jsTruthy : Json → Bool
  | .null => false
  | .bool b => b
  | .num q => q != 0
  | .str s => s != ""
  | .arr _ => true
  | .obj _ => true

/-- Write one key of a JS object: alSet specialized to JSON values. -/
def objSet (fields : List (String × Json)) (k : String) (v : Json) :
    List (String × Json) :=
  alSet fields k v

/-- Write one key with a possibly-undefined value. Writing undefined is
modelled as removing the key: in this program the two are observationally
equal (strict comparisons against strings fail either way, and
JSON.stringify omits undefined-valued keys). -/
def objSetOpt (fields : List (String × Json)) (k : String) :
    Option Json → List (String × Json)
  | some v => objSet fields k v
  | none => fields.filter (fun p => p.1 != k)

/-- Spread the fields of b over the fields of a, as in the object literal
with two spreads. -/
def objMerge (a b : List (String × Json)) : List (String × Json) :=
  b.foldl (fun acc p => objSet acc p.1 p.2) a

/-- The fields a JS spread reads from a value: objects contribute their
fields, every other value contributes none. -/
def fieldsOf : Json → List (String × Json)
  | .obj fields => fields
  | _ => []

-- ============================================================
-- PERMISSIONS CONFIGURATION (index.js lines 23 to 49)
-- ============================================================

/-- Per-role allow-lists, one list per operation. -/
structure RolePerms where
  read : List String
  write : List String
  delete : List String
deriving DecidableEq

/-- Operation names used by the gateway dispatcher. -/
inductive Op where
  | read : Op
  | write : Op
  | delete : Op
deriving DecidableEq

/-- Project a RolePerms entry at an operation, mirroring
FILE_PERMISSIONS[role][operation] (every role in the table defines all
three operations, so the JS fallback to the empty list is dead code
there). -/
def RolePerms.get (p : RolePerms) : Op → List String
  | .read => p.read
  | .write => p.write
  | .delete => p.delete

/-- The static FILE_PERMISSIONS table, verbatim from index.js. -/
def FILE_PERMISSIONS : List (String × RolePerms) :=
  [ ("admin",
     { read := ["clients.json", "users.json", "contracts.json",
                "lmp-database.json", "accounts.json", "energy-profiles.json",
                "activity-log.json", "usage-profiles.json", "tickets.json",
                "widget-preferences.json"],
       write := ["clients.json", "users.json", "contracts.json",
                 "lmp-database.json", "accounts.json", "energy-profiles.json",
                 "activity-log.json", "usage-profiles.json", "tickets.json",
                 "widget-preferences.json"],
       delete := ["energy-profiles.json", "tickets.json"] }),
    ("ae",
     { read := ["clients.json", "contracts.json", "accounts.json",
                "energy-profiles.json", "usage-profiles.json"],
       write := ["energy-profiles.json", "contracts.json",
                 "usage-profiles.json"],
       delete := ["energy-profiles.json"] }),
    ("widget",
     { read := ["clients.json", "accounts.json", "energy-profiles.json",
                "usage-profiles.json", "widget-preferences.json",
                "activity-log.json"],
       write := ["energy-profiles.json", "usage-profiles.json",
                 "widget-preferences.json", "activity-log.json"],
       delete := [] }),
    ("workflow",
     { read := ["lmp-database.json"],
       write := ["lmp-database.json"],
       delete := [] }),
    ("readonly",
     { read := ["lmp-database.json"],
       write := [],
       delete := [] }) ]

/-- JS String.prototype.split with a one-character separator, over the
character list: the empty string yields one empty segment, a separator
at either end yields an empty segment there. -/
def jsSplit (sep : Char) : List Char → List (List Char)
  | [] => [[]]
  | c :: cs =>
    let rest := jsSplit sep cs
    if c = sep then [] :: rest
    else
      match rest with
      | [] => [[c]]
      | r :: rs => (c :: r) :: rs

/-- The dash-separated segments of an API key, as apiKey.split on the
dash computes them. -/
def keyParts (apiKey : String) : List String :=
  (jsSplit '-' apiKey.toList).map String.mk

/-- getRoleFromKey (index.js lines 53 to 59): split on the dash; the role
is the second segment when there are at least two segments and the first
is the literal ses. -/
def getRoleFromKey (apiKey : String) : Option String :=
  if (keyParts apiKey).length ≥ 2 ∧ (keyParts apiKey).head? = some "ses" then
    (keyParts apiKey)[1]?
  else none

/-- The role-level part of hasPermission (index.js lines 62 to 66): the
table lookup and the membership test. -/
def isAllowed (role : String) (filename : String) (operation : Op) : Bool :=
  match (FILE_PERMISSIONS.find? (fun p => p.1 == role)).map (·.2) with
  | none => false
  | some perms => (perms.get operation).contains filename

/-- hasPermission (index.js lines 60 to 67). -/
def hasPermission (apiKey : String) (filename : String) (operation : Op) :
    Bool :=
  match getRoleFromKey apiKey with
  | none => false
  | some role => isAllowed role filename operation

-- ============================================================
-- MAIN FUNCTION (index.js lines 120 to 409)
-- ============================================================

/-- HTTP methods the gateway dispatches on. -/
inductive Method where
  | GET : Method
  | POST : Method
  | PUT : Method
  | PATCH : Method
  | DELETE : Method
  | OPTIONS : Method
deriving DecidableEq

/-- Operation derived from the HTTP method (index.js lines 164 to 167);
OPTIONS is answered before this point is reached. -/
def opOf : Method → Op
  | .GET => .read
  | .POST => .write
  | .PUT => .write
  | .PATCH => .write
  | _ => .delete

/-- Name of an operation as interpolated into the 403 message. -/
def opName : Op → String
  | .read => "read"
  | .write => "write"
  | .delete => "delete"

/-- One HTTP request as the handler sees it. none models an absent
route parameter or header; an empty-string API key header is falsy in JS
exactly like an absent one only for the route parameters, so the key is
kept as a string and its emptiness checked explicitly. -/
structure Request where
  method : Method
  apiKey : Option String
  filename : Option String
  recordId : Option String
  body : Option Json

/-- Gateway environment: the configured valid API key list
(VALID_API_KEYS). CORS origins are not modelled; they only affect
response headers, which no claim mentions. -/
structure Env where
  validKeys : List String

/-- Observable outcome of one request: status, response body (none for
the body-less 204), the content of the target blob after the request
(none when absent), and whether a blob write or delete was performed. -/
structure Outcome where
  status : Nat
  body : Option Json
  doc : Option Json
  wrote : Bool

/-- Error response body shape. -/
def errBody (category message : String) : Json :=
  .obj [("error", .str category), ("message", .str message)]

/-- The updatedBy and createdBy value: the resolved role, or JSON null
when the key resolves to no role (JSON.stringify keeps null). -/
def roleJson : Option String → Json
  | some r => .str r
  | none => .null

/-- The record locator predicate used by GET, PUT and DELETE: any of the
three legacy id fields strictly equals the route id (index.js lines
199 to 203, 310 to 314, 363 to 367). -/
def matchesId (item : Json) (rid : String) : Bool :=
  jsStrEq (getField item "id") rid || jsStrEq (getField item "_id") rid ||
    jsStrEq (getField item "profileId") rid

/-- findIndex over a list, mirroring Array.prototype.findIndex but with
none in place of -1. -/
def findIdxO (p : α → Bool) : List α → Option Nat
  | [] => none
  | x :: xs => if p x then some 0 else (findIdxO p xs).map (· + 1)

/-- GET branch (index.js lines 186 to 227). -/
def handleGet (doc : Option Json) (recordId : Option String)
    (filename : String) : Outcome :=
  match doc with
  | none => ⟨404, some (errBody "Not Found" (filename ++ " not found.")),
             none, false⟩
  | some data =>
    match recordId, data with
    | some rid, .arr items =>
      match items.find? (fun item => matchesId item rid) with
      | none => ⟨404,
          some (errBody "Not Found" ("Record " ++ rid ++ " not found.")),
          some data, false⟩
      | some record => ⟨200, some record, some data, false⟩
    | _, _ => ⟨200, some data, some data, false⟩

/-- The id of a POST-created record: newData.id when truthy, else the
generated id (index.js line 253). -/
def postIdVal (bodyFields : List (String × Json)) (genId : String) : Json :=
  match alGet bodyFields "id" with
  | some v => if jsTruthy v then v else .str genId
  | none => .str genId

/-- The record a POST appends (index.js lines 251 to 256): the body
fields, then id, createdAt and createdBy. -/
def postRecord (bodyFields : List (String × Json)) (genId now : String)
    (role : Option String) : Json :=
  .obj (objSet (objSet (objSet bodyFields "id" (postIdVal bodyFields genId))
    "createdAt" (.str now)) "createdBy" (roleJson role))

/-- POST branch (index.js lines 231 to 283). genId stands for the
generateId() call (timestamp plus random suffix, an effect passed in as
a parameter). -/
def handlePost (role : Option String) (now genId : String)
    (doc : Option Json) (body : Option Json) : Outcome :=
  match body with
  | none => ⟨400, some (errBody "Bad Request" "Request body required."),
             doc, false⟩
  | some newData =>
    if !(jsTruthy newData) then
      ⟨400, some (errBody "Bad Request" "Request body required."), doc,
       false⟩
    else
      match newData with
      | .obj bodyFields =>
        match doc.getD (.arr []) with
        | .arr items =>
          let record : Json := postRecord bodyFields genId now role
          ⟨201, some (.obj [("success", .bool true),
                            ("message", .str "Record created."),
                            ("record", record)]),
           some (.arr (items ++ [record])), true⟩
        | _ =>
          ⟨201, some (.obj [("success", .bool true),
                            ("message", .str "File saved.")]),
           some newData, true⟩
      | _ =>
        ⟨201, some (.obj [("success", .bool true),
                          ("message", .str "File saved.")]),
         some newData, true⟩

/-- The fields a spread of the request body contributes in the record
update: spreading undefined contributes nothing. -/
def bodyFieldsOf : Option Json → List (String × Json)
  | some b => fieldsOf b
  | none => []

/-- The merged record built by the record-level PUT (index.js lines 324
to 331): existing fields, then body fields, then id and createdAt forced
back to the existing values, then updatedAt and updatedBy stamped. -/
def putMergedRecord (old : Json) (body : Option Json)
    (role : Option String) (now : String) : Json :=
  .obj (objSet (objSet (objSetOpt (objSetOpt
    (objMerge (fieldsOf old) (bodyFieldsOf body))
      "id" (getField old "id"))
      "createdAt" (getField old "createdAt"))
      "updatedAt" (.str now))
      "updatedBy" (roleJson role))

/-- PUT branch (index.js lines 287 to 344). A whole-file PUT with no
body reaches saveBlob with undefined, where JSON.stringify yields
undefined and Buffer.byteLength throws; the outer catch turns that into
a 500 before any write. The runtime exception text is modelled as an
opaque constant. -/
def handlePut (role : Option String) (now filename : String)
    (doc : Option Json) (recordId : Option String) (body : Option Json) :
    Outcome :=
  match recordId with
  | none =>
    match body with
    | none => ⟨500, some (errBody "Server Error" "byteLength of undefined"),
               doc, false⟩
    | some fullData =>
      ⟨200, some (.obj [("success", .bool true),
                        ("message", .str "File replaced"),
                        ("filename", .str filename)]),
       some fullData, true⟩
  | some rid =>
    match doc with
    | some (.arr items) =>
      match findIdxO (fun item => matchesId item rid) items with
      | none => ⟨404,
          some (errBody "Not Found" ("Record " ++ rid ++ " not found.")),
          some (.arr items), false⟩
      | some i =>
        let updated := putMergedRecord (items.getD i .null) body role now
        ⟨200, some (.obj [("success", .bool true),
                          ("message", .str "Record updated."),
                          ("record", updated)]),
         some (.arr (items.set i updated)), true⟩
    | _ => ⟨400, some (errBody "Bad Request" "File is not an array."), doc,
            false⟩

/-- DELETE branch (index.js lines 349 to 399). -/
def handleDelete (doc : Option Json) (recordId : Option String) : Outcome :=
  match recordId with
  | some rid =>
    match doc with
    | some (.arr items) =>
      let filtered := items.filter (fun item => !(matchesId item rid))
      if filtered.length == items.length then
        ⟨404,
         some (errBody "Not Found" ("Record " ++ rid ++ " not found.")),
         some (.arr items), false⟩
      else
        ⟨200, some (.obj [("success", .bool true),
                          ("message", .str "Record deleted.")]),
         some (.arr filtered), true⟩
    | _ => ⟨400,
        some (errBody "Bad Request" "Cannot delete record from non-array."),
        doc, false⟩
  | none =>
    match doc with
    | none => ⟨404, some (.obj [("success", .bool false),
                                ("message", .str "File not found.")]),
               none, false⟩
    | some _ => ⟨200, some (.obj [("success", .bool true),
                                  ("message", .str "File deleted.")]),
                 none, true⟩

/-- The whole request handler (index.js lines 120 to 409), as a pure
function of the environment, the request time, the generated id, the
current content of the target blob, and the request. It returns none
exactly when the source sets no context.res (an authorized PATCH falls
through every method branch). -/
def handle (env : Env) (now genId : String) (doc : Option Json)
    (req : Request) : Option Outcome :=
  if req.method = .OPTIONS then
    some ⟨204, none, doc, false⟩
  else
    match req.apiKey with
    | none => some ⟨401,
        some (errBody "Unauthorized" "Valid API key required."), doc, false⟩
    | some key =>
      if key == "" || !(env.validKeys.contains key) then
        some ⟨401, some (errBody "Unauthorized" "Valid API key required."),
              doc, false⟩
      else
        match req.filename with
        | none => some ⟨400,
            some (errBody "Bad Request" "Filename required."), doc, false⟩
        | some filename =>
          let operation := opOf req.method
          if !(hasPermission key filename operation) then
            some ⟨403, some (errBody "Forbidden" ("Your API key cannot " ++
                    opName operation ++ " " ++ filename ++ ".")), doc, false⟩
          else
            match req.method with
            | .GET => some (handleGet doc req.recordId filename)
            | .POST => some (handlePost (getRoleFromKey key) now genId doc
                req.body)
            | .PUT => some (handlePut (getRoleFromKey key) now filename doc
                req.recordId req.body)
            | .DELETE => some (handleDelete doc req.recordId)
            | _ => none

-- ============================================================
-- MERGE LOGIC - APPEND/UPDATE ONLY
-- (LMP Database Azure Updater inside src/scripts/api-key-setup.js)
-- ============================================================

/-- JS x || y over a possibly-absent number: undefined and 0 are falsy. -/
def numOr (x : Option ℚ) (y : ℚ) : ℚ :=
  match x with
  | some v => if v = 0 then y else v
  | none => y

/-- JS x || y over a possibly-absent string: undefined and the empty
string are falsy. -/
def strOr (x : Option String) (y : String) : String :=
  match x with
  | some s => if s = "" then y else s
  | none => y

/-- JS String.prototype.padStart with a one-character pad. -/
def jsPadStart (s : String) (n : Nat) (c : Char) : String :=
  String.mk (List.replicate (n - s.length) c) ++ s

/-- JS x > 0 over a possibly-absent number: undefined compares false. -/
def optGtZero (x : Option ℚ) : Bool :=
  match x with
  | some v => v > 0
  | none => false

/-- A monthly LMP record, incoming or stored: a JS object whose numeric
fields (and zone_id) may be absent. year and month are strings in every
record this repository produces, so toString on them is the identity. -/
structure MRec where
  iso : String
  zone : String
  zone_id : Option String
  year : String
  month : String
  avg_da_lmp : Option ℚ
  lmp : Option ℚ
  min_price : Option ℚ
  max_price : Option ℚ
  record_count : Option ℚ
deriving DecidableEq

/-- Placeholder record for the (never reached) out-of-range list read. -/
def mrecDefault : MRec :=
  { iso := "", zone := "", zone_id := none, year := "", month := "",
    avg_da_lmp := none, lmp := none, min_price := none, max_price := none,
    record_count := none }

/-- monthlyKey (api-key-setup.js lines 461 to 463). -/
def monthlyKey (r : MRec) : String :=
  r.iso ++ "_" ++ r.zone ++ "_" ++ r.year ++ "_" ++ r.month

/-- The normalization step of mergeMonthlyData (lines 484 to 494). The
normalized object has no lmp key, modelled as lmp := none. -/
def normalizeMonthly (r : MRec) : MRec :=
  { iso := r.iso,
    zone := r.zone,
    zone_id := some (strOr r.zone_id r.zone),
    year := r.year,
    month := jsPadStart r.month 2 '0',
    avg_da_lmp := some (numOr r.avg_da_lmp (numOr r.lmp 0)),
    lmp := none,
    min_price := some (numOr r.min_price (numOr r.avg_da_lmp 0)),
    max_price := some (numOr r.max_price (numOr r.avg_da_lmp 0)),
    record_count := some (numOr r.record_count 0) }

/-- database.data: iso name to list of monthly records. -/
abbrev MonthlyDB := List (String × List MRec)

/-- The added / updated / unchanged counters of mergeMonthlyData. -/
structure MergeStats where
  added : ℕ
  updated : ℕ
  unchanged : ℕ
deriving DecidableEq

/-- The body of the for-loop of mergeMonthlyData (lines 474 to 516):
ensure the iso bucket exists (empty arrays are truthy in JS, so only an
absent bucket is created), locate the first record with the same key,
apply the zero-price guard, then add, update or leave unchanged. -/
def mergeMonthlyStep (acc : MonthlyDB × MergeStats) (record : MRec) :
    MonthlyDB × MergeStats :=
  let db := if alGet acc.1 record.iso = none then alSet acc.1 record.iso []
            else acc.1
  let lst := (alGet db record.iso).getD []
  let key := monthlyKey record
  let idx := findIdxO (fun r => monthlyKey r == key) lst
  let n := normalizeMonthly record
  let navg := n.avg_da_lmp.getD 0
  match idx with
  | none => (alSet db record.iso (lst ++ [n]),
             { acc.2 with added := acc.2.added + 1 })
  | some i =>
    let existing := lst.getD i mrecDefault
    if navg = 0 ∧ optGtZero existing.avg_da_lmp then
      (db, { acc.2 with unchanged := acc.2.unchanged + 1 })
    else if |numOr existing.avg_da_lmp 0 - navg| > 1 / 10000 then
      (alSet db record.iso (lst.set i n),
       { acc.2 with updated := acc.2.updated + 1 })
    else
      (db, { acc.2 with unchanged := acc.2.unchanged + 1 })

/-- The sort key of the final per-iso sort (lines 519 to 525): zone,
then year, then month, lexicographically. localeCompare on these plain
ASCII identifiers is modelled as code point string order. -/
def mrecKey (r : MRec) : Lex (String × Lex (String × String)) :=
  toLex (r.zone, toLex (r.year, r.month))

/-- The ordering relation of the final sort. -/
def mrecLE (a b : MRec) : Prop := mrecKey a ≤ mrecKey b

instance : DecidableRel mrecLE :=
  fun a b => inferInstanceAs (Decidable (mrecKey a ≤ mrecKey b))

/-- The final sort of every iso bucket. Array.prototype.sort is stable
with a consistent comparator, so it computes the same list as stable
insertion sort under the modelled total preorder. -/
def sortIsoBuckets (db : MonthlyDB) : MonthlyDB :=
  db.map (fun p => (p.1, p.2.insertionSort mrecLE))

/-- mergeMonthlyData (api-key-setup.js lines 471 to 528), returning the
new database.data together with the counters. -/
def mergeMonthlyData (db : MonthlyDB) (newRecords : List MRec) :
    MonthlyDB × MergeStats :=
  let res := newRecords.foldl mergeMonthlyStep (db, ⟨0, 0, 0⟩)
  (sortIsoBuckets res.1, res.2)

/-- An hourly price record: a JS object read only through its p field
by the merge; t and z are carried opaquely. -/
structure HRec where
  t : Option String
  p : Option ℚ
  z : Option String
deriving DecidableEq

/-- One iso of hourly data: year-month string to record list. -/
abbrev HMonths := List (String × List HRec)

/-- database.hourly: iso name to its months. -/
abbrev HourlyDB := List (String × HMonths)

/-- The counters of mergeHourlyData. -/
structure HourlyStats where
  addedMonths : ℕ
  updatedMonths : ℕ
  totalRecords : ℕ
  skippedMonths : ℕ
deriving DecidableEq

/-- r.p !== 0 in JS: true when p is absent or a non-zero number. -/
def pNonZero (r : HRec) : Bool :=
  !(decide (r.p = some 0))

/-- The inner month loop body of mergeHourlyData (lines 552 to 569):
empty blocks are passed over silently, all-zero blocks are counted as
skipped, every other block replaces the stored block wholesale. -/
def mergeHourlyStepMonth (iso : String) (acc : HourlyDB × HourlyStats)
    (entry : String × List HRec) : HourlyDB × HourlyStats :=
  if entry.2.isEmpty then acc
  else if !(entry.2.any pNonZero) then
    (acc.1, { acc.2 with skippedMonths := acc.2.skippedMonths + 1 })
  else
    let months := (alGet acc.1 iso).getD []
    let isNew := alGet months entry.1 = none
    (alSet acc.1 iso (alSet months entry.1 entry.2),
     { addedMonths := acc.2.addedMonths + (if isNew then 1 else 0),
       updatedMonths := acc.2.updatedMonths + (if isNew then 0 else 1),
       totalRecords := acc.2.totalRecords + entry.2.length,
       skippedMonths := acc.2.skippedMonths })

/-- The outer iso loop body (lines 547 to 570): create the iso bucket
when absent (empty objects are truthy, so only absence creates it), then
fold over the months of that iso. -/
def mergeHourlyStepIso (acc : HourlyDB × HourlyStats)
    (entry : String × HMonths) : HourlyDB × HourlyStats :=
  let db0 := if alGet acc.1 entry.1 = none then alSet acc.1 entry.1 []
             else acc.1
  entry.2.foldl (mergeHourlyStepMonth entry.1) (db0, acc.2)

/-- mergeHourlyData (api-key-setup.js lines 536 to 573). The first
argument is database.hourly (none when the database has no hourly key),
the second is newHourlyData.data (none models a null payload or a
payload without a data key, the early-return branch). -/
def mergeHourlyData (dbHourly : Option HourlyDB)
    (incoming : Option HourlyDB) : Option HourlyDB × HourlyStats :=
  match incoming with
  | none => (dbHourly, ⟨0, 0, 0, 0⟩)
  | some inc =>
    let res := inc.foldl mergeHourlyStepIso (dbHourly.getD [], ⟨0, 0, 0, 0⟩)
    (some res.1, res.2)

-- ============================================================
-- BASIC LEMMAS ABOUT THE JS OBJECT AND ARRAY MODEL
-- ============================================================

theorem alGet_nil {β : Type} (k : String) :
    alGet ([] : List (String × β)) k = none := rfl

theorem alGet_cons {β : Type} (p : String × β) (ps : List (String × β))
    (k : String) :
    alGet (p :: ps) k = if p.1 == k then some p.2 else alGet ps k := by
  by_cases h : p.1 == k <;> simp [alGet, List.find?_cons, h]

theorem alGet_alSet_self {β : Type} (db : List (String × β)) (k : String)
    (v : β) : alGet (alSet db k v) k = some v := by
  induction db with
  | nil => simp [alSet, alGet_cons]
  | cons p ps ih =>
    by_cases h : p.1 == k
    · simp [alSet, h, alGet_cons]
    · simp [alSet, h, alGet_cons, ih]

theorem alGet_alSet_ne {β : Type} (db : List (String × β)) {k k' : String}
    (v : β) (h : k' ≠ k) : alGet (alSet db k v) k' = alGet db k' := by
  induction db with
  | nil =>
    have hk : (k == k') = false := by
      simp [beq_eq_false_iff_ne]
      exact fun hc => h hc.symm
    simp [alSet, alGet_cons, alGet_nil, hk]
  | cons p ps ih =>
    by_cases hp : p.1 == k
    · have hpk : p.1 = k := by simpa [beq_iff_eq] using hp
      have hk : (k == k') = false := by
        simp [beq_eq_false_iff_ne]
        exact fun hc => h hc.symm
      have hpk' : (p.1 == k') = false := by
        simp [beq_eq_false_iff_ne, hpk]
        exact fun hc => h hc.symm
      simp [alSet, hp, alGet_cons, hk, hpk']
    · simp [alSet, hp, alGet_cons, ih]

theorem findIdxO_eq_none {α : Type} {p : α → Bool} {l : List α} :
    findIdxO p l = none ↔ ∀ x ∈ l, p x = false := by
  induction l with
  | nil => simp [findIdxO]
  | cons x xs ih => by_cases h : p x <;> simp [findIdxO, h, ih]

theorem findIdxO_lt_length {α : Type} {p : α → Bool} {l : List α} {i : ℕ}
    (h : findIdxO p l = some i) : i < l.length := by
  induction l generalizing i with
  | nil => simp [findIdxO] at h
  | cons x xs ih =>
    by_cases hx : p x
    · simp [findIdxO, hx] at h
      simp only [List.length_cons]
      omega
    · simp [findIdxO, hx] at h
      obtain ⟨j, hj, rfl⟩ := h
      have := ih hj
      simp only [List.length_cons]
      omega

theorem findIdxO_getD {α : Type} {p : α → Bool} {l : List α} {i : ℕ} (d : α)
    (h : findIdxO p l = some i) :
    p (l.getD i d) = true ∧ l.getD i d ∈ l := by
  induction l generalizing i with
  | nil => simp [findIdxO] at h
  | cons x xs ih =>
    by_cases hx : p x
    · simp [findIdxO, hx] at h
      subst h
      rw [List.getD_cons_zero]
      exact ⟨hx, List.mem_cons_self _ _⟩
    · simp [findIdxO, hx] at h
      obtain ⟨j, hj, rfl⟩ := h
      have hih := ih hj
      rw [List.getD_cons_succ]
      exact ⟨hih.1, List.mem_cons_of_mem _ hih.2⟩

theorem findIdxO_append_left {α : Type} {p : α → Bool} {l : List α} {i : ℕ}
    (t : List α) (h : findIdxO p l = some i) :
    findIdxO p (l ++ t) = some i := by
  induction l generalizing i with
  | nil => simp [findIdxO] at h
  | cons x xs ih =>
    by_cases hx : p x
    · simp [findIdxO, hx] at h
      rw [List.cons_append]
      simp [findIdxO, hx, h]
    · simp [findIdxO, hx] at h
      obtain ⟨j, hj, rfl⟩ := h
      rw [List.cons_append]
      simp only [findIdxO, hx, if_false, Bool.false_eq_true]
      rw [ih hj]
      rfl

theorem findIdxO_append_found {α : Type} {p : α → Bool} {l : List α}
    {x : α} (h : findIdxO p l = none) (hx : p x = true) :
    findIdxO p (l ++ [x]) = some l.length := by
  induction l with
  | nil => simp [findIdxO, hx]
  | cons y ys ih =>
    by_cases hy : p y
    · simp [findIdxO, hy] at h
    · simp [findIdxO, hy] at h
      rw [List.cons_append]
      simp only [findIdxO, hy, if_false, Bool.false_eq_true]
      rw [ih h]
      rfl

theorem findIdxO_set {α : Type} {p : α → Bool} {l : List α} {i : ℕ} {x : α}
    (h : findIdxO p l = some i) (hx : p x = true) :
    findIdxO p (l.set i x) = some i := by
  induction l generalizing i with
  | nil => simp [findIdxO] at h
  | cons y ys ih =>
    by_cases hy : p y
    · simp [findIdxO, hy] at h
      subst h
      rw [List.set_cons_zero]
      simp [findIdxO, hx]
    · simp [findIdxO, hy] at h
      obtain ⟨j, hj, rfl⟩ := h
      rw [List.set_cons_succ]
      simp only [findIdxO, hy, if_false, Bool.false_eq_true]
      rw [ih hj]
      rfl

theorem mem_set_of_ne {α : Type} {l : List α} {i : ℕ} {x e d : α}
    (he : e ∈ l) (h : l.getD i d ≠ e) : e ∈ l.set i x := by
  induction l generalizing i with
  | nil => simp at he
  | cons y ys ih =>
    cases i with
    | zero =>
      rw [List.getD_cons_zero] at h
      rcases List.mem_cons.mp he with he | he
      · exact absurd he.symm h
      · rw [List.set_cons_zero]
        exact List.mem_cons_of_mem _ he
    | succ j =>
      rw [List.getD_cons_succ] at h
      rcases List.mem_cons.mp he with he | he
      · rw [List.set_cons_succ]
        exact he ▸ List.mem_cons_self _ _
      · rw [List.set_cons_succ]
        exact List.mem_cons_of_mem _ (ih he h)

theorem alGet_filter_self (fields : List (String × Json)) (k : String) :
    alGet (fields.filter (fun p => p.1 != k)) k = none := by
  induction fields with
  | nil => rfl
  | cons p ps ih =>
    rw [List.filter_cons]
    by_cases h : p.1 == k
    · rw [if_neg (by simp [bne, h])]
      exact ih
    · rw [if_pos (by simp [bne, h]), alGet_cons, if_neg h]
      exact ih

theorem alGet_filter_ne (fields : List (String × Json)) {k k' : String}
    (h : k' ≠ k) :
    alGet (fields.filter (fun p => p.1 != k)) k' = alGet fields k' := by
  induction fields with
  | nil => rfl
  | cons p ps ih =>
    rw [List.filter_cons]
    by_cases hp : p.1 == k
    · have hpk : p.1 = k := by simpa [beq_iff_eq] using hp
      have hpk' : (p.1 == k') = false := by
        simp only [beq_eq_false_iff_ne, hpk]
        exact fun hc => h hc.symm
      rw [if_neg (by simp [bne, hp]), ih, alGet_cons, if_neg (by simp [hpk'])]
    · rw [if_pos (by simp [bne, hp]), alGet_cons, alGet_cons, ih]

theorem alGet_objSetOpt_self (fields : List (String × Json)) (k : String)
    (ov : Option Json) : alGet (objSetOpt fields k ov) k = ov := by
  cases ov with
  | some v => simpa [objSetOpt, objSet] using alGet_alSet_self fields k v
  | none => simpa [objSetOpt] using alGet_filter_self fields k

theorem alGet_objSetOpt_ne (fields : List (String × Json)) {k k' : String}
    (ov : Option Json) (h : k' ≠ k) :
    alGet (objSetOpt fields k ov) k' = alGet fields k' := by
  cases ov with
  | some v => simpa [objSetOpt, objSet] using alGet_alSet_ne fields v h
  | none => simpa [objSetOpt] using alGet_filter_ne fields h

theorem objMerge_cons (a : List (String × Json)) (p : String × Json)
    (bs : List (String × Json)) :
    objMerge a (p :: bs) = objMerge (alSet a p.1 p.2) bs := rfl

theorem alGet_objMerge (a b : List (String × Json)) (k : String)
    (hb : (b.map Prod.fst).Nodup) :
    alGet (objMerge a b) k = (alGet b k).or (alGet a k) := by
  induction b generalizing a with
  | nil => simp [objMerge, alGet_nil, Option.or]
  | cons p bs ih =>
    rw [List.map_cons, List.nodup_cons] at hb
    rw [objMerge_cons, ih _ hb.2]
    by_cases hp : p.1 == k
    · have hpk : p.1 = k := by simpa [beq_iff_eq] using hp
      have hk : alGet bs k = none := by
        rw [alGet, List.find?_eq_none.mpr, Option.map_none']
        intro x hx hc
        have hxk : x.1 = k := by simpa [beq_iff_eq] using hc
        apply hb.1
        rw [hpk]
        exact List.mem_map.mpr ⟨x, hx, hxk⟩
      rw [hk, alGet_cons, if_pos hp, hpk, alGet_alSet_self]
      simp [Option.or]
    · have hpk : p.1 ≠ k := by simpa [beq_iff_eq] using hp
      rw [alGet_cons, if_neg hp, alGet_alSet_ne _ _ (Ne.symm hpk)]

-- ============================================================
-- CLAIM C4 (permission table)
-- ============================================================

/-- The statically configured allow-set for (role, operation), written
out from the permission table of the specification; every role absent
from the table has the empty allow-set for every operation. -/
def specAllowSet (role : String) (op : Op) : List String :=
  if role = "admin" then
    match op with
    | .read => ["clients.json", "users.json", "contracts.json",
                "lmp-database.json", "accounts.json", "energy-profiles.json",
                "activity-log.json", "usage-profiles.json", "tickets.json",
                "widget-preferences.json"]
    | .write => ["clients.json", "users.json", "contracts.json",
                 "lmp-database.json", "accounts.json", "energy-profiles.json",
                 "activity-log.json", "usage-profiles.json", "tickets.json",
                 "widget-preferences.json"]
    | .delete => ["energy-profiles.json", "tickets.json"]
  else if role = "ae" then
    match op with
    | .read => ["clients.json", "contracts.json", "accounts.json",
                "energy-profiles.json", "usage-profiles.json"]
    | .write => ["energy-profiles.json", "contracts.json",
                 "usage-profiles.json"]
    | .delete => ["energy-profiles.json"]
  else if role = "widget" then
    match op with
    | .read => ["clients.json", "accounts.json", "energy-profiles.json",
                "usage-profiles.json", "widget-preferences.json",
                "activity-log.json"]
    | .write => ["energy-profiles.json", "usage-profiles.json",
                 "widget-preferences.json", "activity-log.json"]
    | .delete => []
  else if role = "workflow" then
    match op with
    | .read => ["lmp-database.json"]
    | .write => ["lmp-database.json"]
    | .delete => []
  else if role = "readonly" then
    match op with
    | .read => ["lmp-database.json"]
    | .write => []
    | .delete => []
  else []

/-- Claim C4: for every role R, document name D and operation op, the
role-level permission check (the table lookup and membership test inside
hasPermission) returns true exactly when D is a member of the statically
configured allow-set for (R, op); in particular it returns false for
every role not present in the table and for every document absent from
the allow-set of the operation. -/
theorem claim_C4 (R D : String) (op : Op) :
    isAllowed R D op = true ↔ D ∈ specAllowSet R op := by
  by_cases h1 : R = "admin"
  · subst h1
    cases op <;>
      simp [isAllowed, FILE_PERMISSIONS, specAllowSet, RolePerms.get,
            List.elem_iff]
  by_cases h2 : R = "ae"
  · subst h2
    cases op <;>
      simp [isAllowed, FILE_PERMISSIONS, specAllowSet, RolePerms.get,
            List.elem_iff]
  by_cases h3 : R = "widget"
  · subst h3
    cases op <;>
      simp [isAllowed, FILE_PERMISSIONS, specAllowSet, RolePerms.get,
            List.elem_iff]
  by_cases h4 : R = "workflow"
  · subst h4
    cases op <;>
      simp [isAllowed, FILE_PERMISSIONS, specAllowSet, RolePerms.get,
            List.elem_iff]
  by_cases h5 : R = "readonly"
  · subst h5
    cases op <;>
      simp [isAllowed, FILE_PERMISSIONS, specAllowSet, RolePerms.get,
            List.elem_iff]
  have e1 : ("admin" == R) = false :=
    beq_eq_false_iff_ne.mpr (fun hc => h1 hc.symm)
  have e2 : ("ae" == R) = false :=
    beq_eq_false_iff_ne.mpr (fun hc => h2 hc.symm)
  have e3 : ("widget" == R) = false :=
    beq_eq_false_iff_ne.mpr (fun hc => h3 hc.symm)
  have e4 : ("workflow" == R) = false :=
    beq_eq_false_iff_ne.mpr (fun hc => h4 hc.symm)
  have e5 : ("readonly" == R) = false :=
    beq_eq_false_iff_ne.mpr (fun hc => h5 hc.symm)
  simp [isAllowed, FILE_PERMISSIONS, specAllowSet, List.find?,
        e1, e2, e3, e4, e5, h1, h2, h3, h4, h5]

-- ============================================================
-- GATEWAY DISPATCH LEMMA
-- ============================================================

/-- An authenticated, authorized request reaches its method branch. -/
theorem handle_eq_of_authorized (env : Env) (now genId : String)
    (doc : Option Json) (method : Method) (key filename : String)
    (recordId : Option String) (body : Option Json)
    (hm : method ≠ .OPTIONS) (hk : key ≠ "") (hkv : key ∈ env.validKeys)
    (hp : hasPermission key filename (opOf method) = true) :
    handle env now genId doc ⟨method, some key, some filename, recordId,
        body⟩ =
      match method with
      | .GET => some (handleGet doc recordId filename)
      | .POST => some (handlePost (getRoleFromKey key) now genId doc body)
      | .PUT => some (handlePut (getRoleFromKey key) now filename doc
          recordId body)
      | .DELETE => some (handleDelete doc recordId)
      | _ => none := by
  have hk0 : (key == "") = false := beq_eq_false_iff_ne.mpr hk
  have hc : env.validKeys.contains key = true := by
    simpa [List.elem_iff] using hkv
  unfold handle
  dsimp only
  rw [if_neg hm, hk0, hc]
  rw [if_neg (by decide : ¬((false || !true) = true))]
  rw [hp]
  rw [if_neg (by decide : ¬((!true) = true))]
  cases method <;> rfl

/-- Dispatch corollary for POST. -/
theorem handle_POST_eq (env : Env) (now genId : String) (doc : Option Json)
    (key filename : String) (recordId : Option String) (body : Option Json)
    (hk : key ≠ "") (hkv : key ∈ env.validKeys)
    (hp : hasPermission key filename .write = true) :
    handle env now genId doc ⟨.POST, some key, some filename, recordId,
        body⟩
      = some (handlePost (getRoleFromKey key) now genId doc body) := by
  rw [handle_eq_of_authorized env now genId doc .POST key filename recordId
      body (by decide) hk hkv hp]

/-- Dispatch corollary for GET. -/
theorem handle_GET_eq (env : Env) (now genId : String) (doc : Option Json)
    (key filename : String) (recordId : Option String) (body : Option Json)
    (hk : key ≠ "") (hkv : key ∈ env.validKeys)
    (hp : hasPermission key filename .read = true) :
    handle env now genId doc ⟨.GET, some key, some filename, recordId,
        body⟩
      = some (handleGet doc recordId filename) := by
  rw [handle_eq_of_authorized env now genId doc .GET key filename recordId
      body (by decide) hk hkv hp]

-- ============================================================
-- CLAIM C8 (malformed API key)
-- ============================================================

/-- Claim C8 fails as stated: when the malformed key badkey is itself in
the configured valid key list, a GET with that key passes authentication
and is rejected by authorization with 403, not 401. -/
theorem claim_C8_counterexample :
    (handle ⟨["badkey"]⟩ "T" "G" (some (.arr []))
        ⟨.GET, some "badkey", some "clients.json", none, none⟩).map
      Outcome.status = some 403 ∧
    (keyParts "badkey").length < 2 := by
  constructor
  · rfl
  · decide

/-- Claim C8, amended: every non-OPTIONS request presenting a malformed
API key (no dash separator, or first dash segment not ses) that is not
in the configured valid-key list is answered 401, regardless of the
target document. -/
theorem claim_C8 (env : Env) (now genId : String) (doc : Option Json)
    (method : Method) (key : String) (filename recordId : Option String)
    (body : Option Json) (hm : method ≠ .OPTIONS)
    (hmal : (keyParts key).length < 2 ∨ (keyParts key).head? ≠ some "ses")
    (hnv : key ∉ env.validKeys) :
    handle env now genId doc ⟨method, some key, filename, recordId, body⟩
      = some ⟨401, some (errBody "Unauthorized" "Valid API key required."),
              doc, false⟩ := by
  have hc : env.validKeys.contains key = false := by
    rw [← Bool.not_eq_true]
    simpa [List.elem_iff] using hnv
  unfold handle
  dsimp only
  rw [if_neg hm, hc]
  simp

/-- Witness for claim C8 at a concrete input. -/
theorem claim_C8_witness :
    (Method.GET ≠ Method.OPTIONS ∧
     ((keyParts "badkey").length < 2 ∨
       (keyParts "badkey").head? ≠ some "ses") ∧
     "badkey" ∉ ["ses-admin-abc123def456"]) ∧
    handle ⟨["ses-admin-abc123def456"]⟩ "T" "G" (some (.arr []))
        ⟨.GET, some "badkey", some "clients.json", none, none⟩
      = some ⟨401, some (errBody "Unauthorized" "Valid API key required."),
              some (.arr []), false⟩ :=
  ⟨⟨by decide, by decide, by decide⟩,
   claim_C8 ⟨["ses-admin-abc123def456"]⟩ "T" "G" (some (.arr [])) .GET
     "badkey" (some "clients.json") none none (by decide) (by decide)
     (by decide)⟩

-- ============================================================
-- CLAIM C9 (missing request body)
-- ============================================================

/-- Claim C9 fails as stated for PUT: an authorized record-level PUT
with an absent body is answered 200 and performs a blob write (the
record keeps its fields and only gains updatedAt and updatedBy), instead
of the claimed 400 with nothing persisted. -/
theorem claim_C9_counterexample :
    (handle ⟨["ses-admin-k"]⟩ "T2" "G"
        (some (.arr [.obj [("id", .str "r1"), ("note", .str "x")]]))
        ⟨.PUT, some "ses-admin-k", some "clients.json", some "r1",
         none⟩).map (fun o => (o.status, o.wrote)) = some (200, true) := by
  rfl

/-- Claim C9, amended to the method the check exists for: every
authenticated, authorized POST whose request body is absent is answered
400 (missing body) and nothing is persisted. PUT performs no such check:
a whole-file PUT without a body fails with 500 while serializing, and a
record-level PUT without a body succeeds with 200. -/
theorem claim_C9 (env : Env) (now genId : String) (doc : Option Json)
    (key filename : String) (recordId : Option String)
    (hk : key ≠ "") (hkv : key ∈ env.validKeys)
    (hp : hasPermission key filename .write = true) :
    handle env now genId doc ⟨.POST, some key, some filename, recordId,
        none⟩
      = some ⟨400, some (errBody "Bad Request" "Request body required."),
              doc, false⟩ := by
  rw [handle_eq_of_authorized env now genId doc .POST key filename recordId
      none (by decide) hk hkv hp]
  rfl

/-- Witness for claim C9 at a concrete input. -/
theorem claim_C9_witness :
    ("ses-admin-k" ≠ "" ∧ "ses-admin-k" ∈ ["ses-admin-k"] ∧
     hasPermission "ses-admin-k" "clients.json" .write = true) ∧
    handle ⟨["ses-admin-k"]⟩ "T" "G" (some (.obj [])) ⟨.POST,
        some "ses-admin-k", some "clients.json", none, none⟩
      = some ⟨400, some (errBody "Bad Request" "Request body required."),
              some (.obj []), false⟩ :=
  ⟨⟨by decide, by decide, by decide⟩,
   claim_C9 ⟨["ses-admin-k"]⟩ "T" "G" (some (.obj [])) "ses-admin-k"
     "clients.json" none (by decide) (by decide) (by decide)⟩

-- ============================================================
-- CLAIM C10 (GET with record id on a non-array document)
-- ============================================================

/-- Whether a JSON value is an array. -/
def isJsonArray : Json → Bool
  | .arr _ => true
  | _ => false

/-- Claim C10: an authorized GET carrying a record id against an
existing document that is not a JSON array is answered 200 with the
whole document; the record id is ignored and no 400 or record-level 404
is produced. -/
theorem claim_C10 (env : Env) (now genId : String) (d : Json)
    (key filename rid : String)
    (hk : key ≠ "") (hkv : key ∈ env.validKeys)
    (hp : hasPermission key filename .read = true)
    (hna : isJsonArray d = false) :
    handle env now genId (some d) ⟨.GET, some key, some filename,
        some rid, none⟩
      = some ⟨200, some d, some d, false⟩ := by
  rw [handle_eq_of_authorized env now genId (some d) .GET key filename
      (some rid) none (by decide) hk hkv hp]
  cases d <;> first
    | rfl
    | simp [isJsonArray] at hna

/-- Witness for claim C10 at a concrete input. -/
theorem claim_C10_witness :
    ("ses-admin-k" ≠ "" ∧ "ses-admin-k" ∈ ["ses-admin-k"] ∧
     hasPermission "ses-admin-k" "clients.json" .read = true ∧
     isJsonArray (.obj [("a", .num 1)]) = false) ∧
    handle ⟨["ses-admin-k"]⟩ "T" "G" (some (.obj [("a", .num 1)]))
        ⟨.GET, some "ses-admin-k", some "clients.json", some "r1", none⟩
      = some ⟨200, some (.obj [("a", .num 1)]),
              some (.obj [("a", .num 1)]), false⟩ :=
  ⟨⟨by decide, by decide, by decide, rfl⟩,
   claim_C10 ⟨["ses-admin-k"]⟩ "T" "G" (.obj [("a", .num 1)])
     "ses-admin-k" "clients.json" "r1" (by decide) (by decide) (by decide)
     rfl⟩

-- ============================================================
-- CLAIM C1 (record-level PUT audit fields)
-- ============================================================

theorem getField_fieldsOf (v : Json) (k : String) :
    getField v k = alGet (fieldsOf v) k := by
  cases v <;> rfl

/-- Field content of the record built by a record-level PUT: id and
createdAt come from the existing record, updatedAt and updatedBy are
stamped, and every other field takes the body value when present,
falling back to the existing value. -/
theorem putMergedRecord_fields (old : Json) (body : Option Json)
    (role : Option String) (now : String)
    (hbNd : ((bodyFieldsOf body).map Prod.fst).Nodup) :
    getField (putMergedRecord old body role now) "id" = getField old "id" ∧
    getField (putMergedRecord old body role now) "createdAt"
      = getField old "createdAt" ∧
    getField (putMergedRecord old body role now) "updatedAt"
      = some (.str now) ∧
    getField (putMergedRecord old body role now) "updatedBy"
      = some (roleJson role) ∧
    ∀ k, k ≠ "id" → k ≠ "createdAt" → k ≠ "updatedAt" → k ≠ "updatedBy" →
      getField (putMergedRecord old body role now) k
        = (alGet (bodyFieldsOf body) k).or (getField old k) := by
  refine ⟨?_, ?_, ?_, ?_, ?_⟩
  · rw [putMergedRecord, getField, objSet, objSet,
        alGet_alSet_ne _ _ (by decide), alGet_alSet_ne _ _ (by decide),
        alGet_objSetOpt_ne _ _ (by decide), alGet_objSetOpt_self,
        getField_fieldsOf]
  · rw [putMergedRecord, getField, objSet, objSet,
        alGet_alSet_ne _ _ (by decide), alGet_alSet_ne _ _ (by decide),
        alGet_objSetOpt_self, getField_fieldsOf]
  · rw [putMergedRecord, getField, objSet, objSet,
        alGet_alSet_ne _ _ (by decide), alGet_alSet_self]
  · rw [putMergedRecord, getField, objSet, objSet, alGet_alSet_self]
  · intro k h1 h2 h3 h4
    rw [putMergedRecord, getField, objSet, objSet,
        alGet_alSet_ne _ _ h4, alGet_alSet_ne _ _ h3,
        alGet_objSetOpt_ne _ _ h2, alGet_objSetOpt_ne _ _ h1,
        alGet_objMerge _ _ _ hbNd, getField_fieldsOf]

/-- Claim C1 fails as stated: a record-level PUT whose body carries a
createdBy field overwrites the stored createdBy (only id and createdAt
are forced back to the existing values). -/
theorem claim_C1_counterexample :
    (handle ⟨["ses-admin-k"]⟩ "T1" "G"
        (some (.arr [.obj [("id", .str "r1"), ("createdAt", .str "T0"),
                           ("createdBy", .str "admin")]]))
        ⟨.PUT, some "ses-admin-k", some "clients.json", some "r1",
         some (.obj [("createdBy", .str "evil")])⟩).map (fun o => o.doc)
      = some (some (.arr [.obj [("id", .str "r1"),
          ("createdAt", .str "T0"), ("createdBy", .str "evil"),
          ("updatedAt", .str "T1"), ("updatedBy", .str "admin")]])) ∧
    Json.str "evil" ≠ Json.str "admin" :=
  ⟨rfl, by simp⟩

/-- Claim C1, amended: a record-level PUT leaves id and createdAt at
their pre-update values and sets updatedAt / updatedBy to the request
time and the resolved role; createdBy is not protected, it takes the
body value when the body supplies one and keeps the existing value
otherwise. -/
theorem claim_C1 (env : Env) (now genId : String) (items : List Json)
    (key filename rid : String) (body : Option Json) (i : ℕ)
    (hk : key ≠ "") (hkv : key ∈ env.validKeys)
    (hp : hasPermission key filename .write = true)
    (hfind : findIdxO (fun item => matchesId item rid) items = some i)
    (hbNd : ((bodyFieldsOf body).map Prod.fst).Nodup) :
    handle env now genId (some (.arr items))
        ⟨.PUT, some key, some filename, some rid, body⟩
      = some ⟨200, some (.obj [("success", .bool true),
                ("message", .str "Record updated."),
                ("record", putMergedRecord (items.getD i .null) body
                  (getRoleFromKey key) now)]),
              some (.arr (items.set i (putMergedRecord (items.getD i .null)
                body (getRoleFromKey key) now))), true⟩ ∧
    getField (putMergedRecord (items.getD i .null) body
        (getRoleFromKey key) now) "id"
      = getField (items.getD i .null) "id" ∧
    getField (putMergedRecord (items.getD i .null) body
        (getRoleFromKey key) now) "createdAt"
      = getField (items.getD i .null) "createdAt" ∧
    getField (putMergedRecord (items.getD i .null) body
        (getRoleFromKey key) now) "updatedAt" = some (.str now) ∧
    getField (putMergedRecord (items.getD i .null) body
        (getRoleFromKey key) now) "updatedBy"
      = some (roleJson (getRoleFromKey key)) ∧
    getField (putMergedRecord (items.getD i .null) body
        (getRoleFromKey key) now) "createdBy"
      = (alGet (bodyFieldsOf body) "createdBy").or
          (getField (items.getD i .null) "createdBy") := by
  have hf := putMergedRecord_fields (items.getD i .null) body
    (getRoleFromKey key) now hbNd
  refine ⟨?_, hf.1, hf.2.1, hf.2.2.1, hf.2.2.2.1,
          hf.2.2.2.2 "createdBy" (by decide) (by decide) (by decide)
            (by decide)⟩
  rw [handle_eq_of_authorized env now genId (some (.arr items)) .PUT key
      filename (some rid) body (by decide) hk hkv hp]
  dsimp only [handlePut]
  rw [hfind]

/-- Witness for claim C1 at a concrete input. -/
theorem claim_C1_witness :
    ("ses-ae-x" ≠ "" ∧ "ses-ae-x" ∈ ["ses-ae-x"] ∧
     hasPermission "ses-ae-x" "energy-profiles.json" .write = true ∧
     findIdxO (fun item => matchesId item "p7")
       [.obj [("id", .str "p7"), ("createdAt", .str "T0"),
              ("createdBy", .str "admin"), ("size", .num 3)]] = some 0 ∧
     ((bodyFieldsOf (some (.obj [("size", .num 9)]))).map
       Prod.fst).Nodup) ∧
    (handle ⟨["ses-ae-x"]⟩ "T9" "G"
        (some (.arr [.obj [("id", .str "p7"), ("createdAt", .str "T0"),
                ("createdBy", .str "admin"), ("size", .num 3)]]))
        ⟨.PUT, some "ses-ae-x", some "energy-profiles.json", some "p7",
         some (.obj [("size", .num 9)])⟩
      = some ⟨200, some (.obj [("success", .bool true),
                ("message", .str "Record updated."),
                ("record", putMergedRecord
                  ([.obj [("id", .str "p7"), ("createdAt", .str "T0"),
                     ("createdBy", .str "admin"),
                     ("size", .num 3)]].getD 0 .null)
                  (some (.obj [("size", .num 9)]))
                  (getRoleFromKey "ses-ae-x") "T9")]),
              some (.arr ([.obj [("id", .str "p7"), ("createdAt", .str "T0"),
                ("createdBy", .str "admin"), ("size", .num 3)]].set 0
                  (putMergedRecord
                    ([.obj [("id", .str "p7"), ("createdAt", .str "T0"),
                       ("createdBy", .str "admin"),
                       ("size", .num 3)]].getD 0 .null)
                    (some (.obj [("size", .num 9)]))
                    (getRoleFromKey "ses-ae-x") "T9"))), true⟩) :=
  ⟨⟨by decide, by decide, by decide, by rfl, by decide⟩,
   (claim_C1 ⟨["ses-ae-x"]⟩ "T9" "G"
     [.obj [("id", .str "p7"), ("createdAt", .str "T0"),
            ("createdBy", .str "admin"), ("size", .num 3)]]
     "ses-ae-x" "energy-profiles.json" "p7"
     (some (.obj [("size", .num 9)])) 0 (by decide) (by decide)
     (by decide) (by rfl) (by decide)).1⟩

-- ============================================================
-- CLAIM C5 (POST create or whole-file replace)
-- ============================================================

/-- Claim C5: for an authorized POST with a present (truthy) body: when
the body is a non-array object and the stored document is an array (or
absent, defaulting to the empty array), the gateway appends the record
made of the body fields plus id (the body id when truthy, else the
generated one), createdAt set to now and createdBy set to the resolved
role, persists the array and answers 201 with the created record; when
the body is a non-array object but the stored document is not an array,
or the body is an array, the body is persisted as the whole file with
201. -/
theorem claim_C5 (env : Env) (now genId : String) (doc : Option Json)
    (key filename : String) (recordId : Option String) (b : Json)
    (hk : key ≠ "") (hkv : key ∈ env.validKeys)
    (hp : hasPermission key filename .write = true)
    (hb : jsTruthy b = true) :
    (∀ bodyFields, b = .obj bodyFields →
      (∀ items, doc.getD (.arr []) = .arr items →
        handle env now genId doc
            ⟨.POST, some key, some filename, recordId, some b⟩
          = some ⟨201, some (.obj [("success", .bool true),
                    ("message", .str "Record created."),
                    ("record", postRecord bodyFields genId now
                      (getRoleFromKey key))]),
                  some (.arr (items ++ [postRecord bodyFields genId now
                    (getRoleFromKey key)])), true⟩ ∧
        getField (postRecord bodyFields genId now (getRoleFromKey key))
            "id" = some (postIdVal bodyFields genId) ∧
        getField (postRecord bodyFields genId now (getRoleFromKey key))
            "createdAt" = some (.str now) ∧
        getField (postRecord bodyFields genId now (getRoleFromKey key))
            "createdBy" = some (roleJson (getRoleFromKey key)) ∧
        (∀ k, k ≠ "id" → k ≠ "createdAt" → k ≠ "createdBy" →
          getField (postRecord bodyFields genId now (getRoleFromKey key)) k
            = alGet bodyFields k)) ∧
      (isJsonArray (doc.getD (.arr [])) = false →
        handle env now genId doc
            ⟨.POST, some key, some filename, recordId, some b⟩
          = some ⟨201, some (.obj [("success", .bool true),
                    ("message", .str "File saved.")]), some b, true⟩)) ∧
    (∀ elems, b = .arr elems →
      handle env now genId doc
          ⟨.POST, some key, some filename, recordId, some b⟩
        = some ⟨201, some (.obj [("success", .bool true),
                  ("message", .str "File saved.")]), some b, true⟩) := by
  have hd := handle_POST_eq env now genId doc key filename recordId
    (some b) hk hkv hp
  refine ⟨fun bodyFields hbf => ⟨fun items hitems => ?_, fun hna => ?_⟩,
          fun elems hel => ?_⟩
  · subst hbf
    refine ⟨?_, ?_, ?_, ?_, ?_⟩
    · rw [hd]
      dsimp only [handlePost]
      rw [if_neg (by simp [jsTruthy] :
            ¬((!jsTruthy (Json.obj bodyFields)) = true))]
      rw [hitems]
    · rw [postRecord, getField]
      simp only [objSet]
      rw [alGet_alSet_ne _ _ (by decide), alGet_alSet_ne _ _ (by decide),
          alGet_alSet_self]
    · rw [postRecord, getField]
      simp only [objSet]
      rw [alGet_alSet_ne _ _ (by decide), alGet_alSet_self]
    · rw [postRecord, getField]
      simp only [objSet]
      rw [alGet_alSet_self]
    · intro k h1 h2 h3
      rw [postRecord, getField]
      simp only [objSet]
      rw [alGet_alSet_ne _ _ h3, alGet_alSet_ne _ _ h2,
          alGet_alSet_ne _ _ h1]
  · subst hbf
    rw [hd]
    dsimp only [handlePost]
    rw [if_neg (by simp [jsTruthy] :
          ¬((!jsTruthy (Json.obj bodyFields)) = true))]
    rcases hdg : doc.getD (.arr []) with _ | _ | _ | _ | l | f <;>
      first
        | rfl
        | (rw [hdg] at hna; simp [isJsonArray] at hna)
  · subst hel
    rw [hd]
    dsimp only [handlePost]
    rw [if_neg (by simp [jsTruthy] :
          ¬((!jsTruthy (Json.arr elems)) = true))]

/-- Witness for claim C5 at a concrete input: a POST of a fresh object
into an absent document. -/
theorem claim_C5_witness :
    ("ses-admin-k" ≠ "" ∧ "ses-admin-k" ∈ ["ses-admin-k"] ∧
     hasPermission "ses-admin-k" "energy-profiles.json" .write = true ∧
     jsTruthy (.obj [("name", .str "loc1")]) = true ∧
     (none : Option Json).getD (.arr []) = .arr []) ∧
    handle ⟨["ses-admin-k"]⟩ "T" "G" none
        ⟨.POST, some "ses-admin-k", some "energy-profiles.json", none,
         some (.obj [("name", .str "loc1")])⟩
      = some ⟨201, some (.obj [("success", .bool true),
                ("message", .str "Record created."),
                ("record", postRecord [("name", .str "loc1")] "G" "T"
                  (getRoleFromKey "ses-admin-k"))]),
              some (.arr ([] ++ [postRecord [("name", .str "loc1")] "G" "T"
                (getRoleFromKey "ses-admin-k")])), true⟩ :=
  ⟨⟨by decide, by decide, by decide, by decide, rfl⟩,
   (((claim_C5 ⟨["ses-admin-k"]⟩ "T" "G" none "ses-admin-k"
       "energy-profiles.json" none (.obj [("name", .str "loc1")])
       (by decide) (by decide) (by decide) (by decide)).1
     [("name", .str "loc1")] rfl).1 [] rfl).1⟩

-- ============================================================
-- CLAIM C7 (deletion is monotonic)
-- ============================================================

/-- Claim C7: when a record-level DELETE succeeds (the filter removed at
least one record, status 200), a GET of the same id on the resulting
document is 404 and repeating the same DELETE is 404. -/
theorem claim_C7 (env : Env) (now genId : String) (items : List Json)
    (key filename rid : String)
    (hk : key ≠ "") (hkv : key ∈ env.validKeys)
    (hpr : hasPermission key filename .read = true)
    (hpd : hasPermission key filename .delete = true)
    (hne : (items.filter (fun item => !(matchesId item rid))).length
      ≠ items.length) :
    handle env now genId (some (.arr items))
        ⟨.DELETE, some key, some filename, some rid, none⟩
      = some ⟨200, some (.obj [("success", .bool true),
                ("message", .str "Record deleted.")]),
              some (.arr (items.filter
                (fun item => !(matchesId item rid)))), true⟩ ∧
    (handle env now genId
        (some (.arr (items.filter (fun item => !(matchesId item rid)))))
        ⟨.GET, some key, some filename, some rid, none⟩).map Outcome.status
      = some 404 ∧
    (handle env now genId
        (some (.arr (items.filter (fun item => !(matchesId item rid)))))
        ⟨.DELETE, some key, some filename, some rid, none⟩).map
      Outcome.status = some 404 := by
  have hbne : ((items.filter (fun item => !(matchesId item rid))).length
      == items.length) = false := beq_eq_false_iff_ne.mpr hne
  refine ⟨?_, ?_, ?_⟩
  · rw [handle_eq_of_authorized env now genId (some (.arr items)) .DELETE
        key filename (some rid) none (by decide) hk hkv hpd]
    dsimp only [handleDelete]
    rw [hbne]
    rfl
  · rw [handle_eq_of_authorized env now genId _ .GET
        key filename (some rid) none (by decide) hk hkv hpr]
    have hfind : (items.filter (fun item => !(matchesId item rid))).find?
        (fun item => matchesId item rid) = none := by
      rw [List.find?_eq_none]
      intro x hx
      have := (List.mem_filter.mp hx).2
      simp only [Bool.not_eq_true'] at this
      simp [this]
    dsimp only [handleGet]
    rw [hfind]
    rfl
  · rw [handle_eq_of_authorized env now genId _ .DELETE
        key filename (some rid) none (by decide) hk hkv hpd]
    have hff : (items.filter (fun item => !(matchesId item rid))).filter
        (fun item => !(matchesId item rid))
        = items.filter (fun item => !(matchesId item rid)) := by
      simp [List.filter_filter]
    dsimp only [handleDelete]
    rw [hff]
    simp

/-- Witness for claim C7 at a concrete input. -/
theorem claim_C7_witness :
    ("ses-admin-k" ≠ "" ∧ "ses-admin-k" ∈ ["ses-admin-k"] ∧
     hasPermission "ses-admin-k" "tickets.json" .read = true ∧
     hasPermission "ses-admin-k" "tickets.json" .delete = true ∧
     ([Json.obj [("id", .str "r1")]].filter
       (fun item => !(matchesId item "r1"))).length
       ≠ [Json.obj [("id", .str "r1")]].length) ∧
    (handle ⟨["ses-admin-k"]⟩ "T" "G"
        (some (.arr [Json.obj [("id", .str "r1")]]))
        ⟨.DELETE, some "ses-admin-k", some "tickets.json", some "r1",
         none⟩
      = some ⟨200, some (.obj [("success", .bool true),
                ("message", .str "Record deleted.")]),
              some (.arr ([Json.obj [("id", .str "r1")]].filter
                (fun item => !(matchesId item "r1")))), true⟩) ∧
    (handle ⟨["ses-admin-k"]⟩ "T" "G"
        (some (.arr ([Json.obj [("id", .str "r1")]].filter
          (fun item => !(matchesId item "r1")))))
        ⟨.GET, some "ses-admin-k", some "tickets.json", some "r1",
         none⟩).map Outcome.status = some 404 ∧
    (handle ⟨["ses-admin-k"]⟩ "T" "G"
        (some (.arr ([Json.obj [("id", .str "r1")]].filter
          (fun item => !(matchesId item "r1")))))
        ⟨.DELETE, some "ses-admin-k", some "tickets.json", some "r1",
         none⟩).map Outcome.status = some 404 :=
  ⟨⟨by decide, by decide, by decide, by decide, by decide⟩,
   claim_C7 ⟨["ses-admin-k"]⟩ "T" "G" [Json.obj [("id", .str "r1")]]
     "ses-admin-k" "tickets.json" "r1" (by decide) (by decide) (by decide)
     (by decide) (by decide)⟩

-- ============================================================
-- CLAIM C2 (monthly merge zero-price guard)
-- ============================================================

theorem alGet_sortIsoBuckets (db : MonthlyDB) (k : String) :
    alGet (sortIsoBuckets db) k
      = (alGet db k).map (List.insertionSort mrecLE) := by
  induction db with
  | nil => rfl
  | cons p ps ih =>
    by_cases h : p.1 == k
    · simp [sortIsoBuckets, alGet_cons, h]
    · simp only [sortIsoBuckets, List.map_cons] at ih ⊢
      rw [alGet_cons, alGet_cons]
      simp only [h, if_false, Bool.false_eq_true]
      exact ih

/-- A monthly record for the zero-guard scenarios: the PJM AECO January
2025 key with a given average price. -/
def c2exRec (v : Option ℚ) : MRec :=
  { iso := "PJM", zone := "AECO", zone_id := none, year := "2025",
    month := "01", avg_da_lmp := v, lmp := none, min_price := none,
    max_price := none, record_count := none }

/-- Claim C2 fails as stated: an incoming zero price for a key whose
existing record has the non-zero price -5 is not skipped; the existing
value is overwritten with 0 and the run counts one updated, zero
unchanged. The guard only protects strictly positive existing prices.
The last conjunct delimits the failure: an existing record with an
ABSENT price also falls through the guard, but the epsilon comparison
then sees zero difference and leaves it unchanged, counted unchanged. -/
theorem claim_C2_counterexample :
    (mergeMonthlyData [("PJM", [c2exRec (some (-5))])] [c2exRec (some 0)]
      = ([("PJM", [normalizeMonthly (c2exRec (some 0))])], ⟨0, 1, 0⟩) ∧
    (c2exRec (some (-5))).avg_da_lmp = some (-5) ∧
    (normalizeMonthly (c2exRec (some 0))).avg_da_lmp = some 0) ∧
    mergeMonthlyData [("PJM", [c2exRec none])] [c2exRec (some 0)]
      = ([("PJM", [c2exRec none])], ⟨0, 0, 1⟩) := by
  refine ⟨⟨?_, rfl, by rfl⟩, ?_⟩
  unfold mergeMonthlyData
  rw [List.foldl_cons, List.foldl_nil]
  simp only [mergeMonthlyStep]
  rw [(by rfl : alGet [("PJM", [c2exRec (some (-5))])]
        (c2exRec (some 0)).iso = some [c2exRec (some (-5))])]
  rw [if_neg (Option.some_ne_none [c2exRec (some (-5))])]
  rw [(by rfl : alGet [("PJM", [c2exRec (some (-5))])]
        (c2exRec (some 0)).iso = some [c2exRec (some (-5))])]
  simp only [Option.getD_some]
  rw [(by rfl : findIdxO
        (fun x => monthlyKey x == monthlyKey (c2exRec (some 0)))
        [c2exRec (some (-5))] = some 0)]
  try dsimp only
  rw [(by rfl : (normalizeMonthly (c2exRec (some 0))).avg_da_lmp.getD 0
        = 0)]
  rw [(by rfl : [c2exRec (some (-5))].getD 0 mrecDefault
        = c2exRec (some (-5)))]
  rw [if_neg (by
    intro hc
    have h2 := hc.2
    simp only [c2exRec, optGtZero, decide_eq_true_eq] at h2
    norm_num at h2)]
  rw [if_pos (by
    rw [(by rfl : (c2exRec (some (-5))).avg_da_lmp = some (-5))]
    rw [(by norm_num [numOr] : numOr (some (-5 : ℚ)) 0 = -5)]
    rw [(by norm_num : (-5 : ℚ) - 0 = -5), abs_neg,
        abs_of_pos (by norm_num : (0 : ℚ) < 5)]
    norm_num)]
  rfl
  unfold mergeMonthlyData
  rw [List.foldl_cons, List.foldl_nil]
  simp only [mergeMonthlyStep]
  rw [(by rfl : alGet [("PJM", [c2exRec none])]
        (c2exRec (some 0)).iso = some [c2exRec none])]
  rw [if_neg (Option.some_ne_none [c2exRec none])]
  rw [(by rfl : alGet [("PJM", [c2exRec none])]
        (c2exRec (some 0)).iso = some [c2exRec none])]
  simp only [Option.getD_some]
  rw [(by rfl : findIdxO
        (fun x => monthlyKey x == monthlyKey (c2exRec (some 0)))
        [c2exRec none] = some 0)]
  try dsimp only
  rw [(by rfl : (normalizeMonthly (c2exRec (some 0))).avg_da_lmp.getD 0
        = 0)]
  rw [(by rfl : [c2exRec none].getD 0 mrecDefault = c2exRec none)]
  rw [if_neg (by
    intro hc
    have h2 := hc.2
    simp [c2exRec, optGtZero] at h2)]
  rw [if_neg (by
    rw [(by rfl : (c2exRec none).avg_da_lmp = (none : Option ℚ))]
    rw [(by norm_num [numOr] : numOr (none : Option ℚ) 0 = 0)]
    norm_num)]
  rfl

/-- Claim C2, amended: when the existing record under the same key has a
strictly positive avg_da_lmp and the incoming record normalizes to a
zero price, the merge leaves the database unchanged apart from the final
per-iso sort, keeps the existing record in its bucket, and counts one
unchanged (zero added, zero updated). The guard tests strictly positive
only, so an existing NEGATIVE price is not protected: a zero incoming
price overwrites it and counts as updated (first conjunct of the
counterexample). An existing ABSENT price falls through the guard too,
but the epsilon comparison then computes a zero difference, so the
record is still left unchanged (last conjunct of the counterexample). -/
theorem claim_C2 (db : MonthlyDB) (r : MRec) (lst : List MRec) (i : ℕ)
    (hb : alGet db r.iso = some lst)
    (hfind : findIdxO (fun x => monthlyKey x == monthlyKey r) lst = some i)
    (hpos : optGtZero (lst.getD i mrecDefault).avg_da_lmp = true)
    (hzero : (normalizeMonthly r).avg_da_lmp = some 0) :
    mergeMonthlyData db [r] = (sortIsoBuckets db, ⟨0, 0, 1⟩) ∧
    lst.getD i mrecDefault ∈ (alGet (sortIsoBuckets db) r.iso).getD [] := by
  have hstep : mergeMonthlyStep (db, ⟨0, 0, 0⟩) r = (db, ⟨0, 0, 1⟩) := by
    unfold mergeMonthlyStep
    dsimp only
    rw [hb]
    rw [if_neg (by simp : ¬(some lst = none))]
    rw [hb]
    simp only [Option.getD_some]
    rw [hfind]
    rw [hzero]
    simp only [Option.getD_some]
    rw [if_pos ⟨by trivial, hpos⟩]
  refine ⟨?_, ?_⟩
  · unfold mergeMonthlyData
    rw [List.foldl_cons, List.foldl_nil, hstep]
  · have hm := (findIdxO_getD mrecDefault hfind).2
    rw [alGet_sortIsoBuckets, hb]
    simpa [List.mem_insertionSort] using hm

/-- Witness for claim C2 at the concrete input of the specification:
existing 42.0, incoming 0. -/
theorem claim_C2_witness :
    (alGet [("PJM", [c2exRec (some 42)])] (c2exRec (some 0)).iso
       = some [c2exRec (some 42)] ∧
     findIdxO (fun x => monthlyKey x == monthlyKey (c2exRec (some 0)))
       [c2exRec (some 42)] = some 0 ∧
     optGtZero ([c2exRec (some 42)].getD 0 mrecDefault).avg_da_lmp
       = true ∧
     (normalizeMonthly (c2exRec (some 0))).avg_da_lmp = some 0) ∧
    mergeMonthlyData [("PJM", [c2exRec (some 42)])] [c2exRec (some 0)]
      = (sortIsoBuckets [("PJM", [c2exRec (some 42)])], ⟨0, 0, 1⟩) :=
  ⟨⟨by decide, by decide, by decide, by decide⟩,
   (claim_C2 [("PJM", [c2exRec (some 42)])] (c2exRec (some 0))
     [c2exRec (some 42)] 0 (by decide) (by decide) (by decide)
     (by decide)).1⟩

-- ============================================================
-- CLAIM C6 (hourly block merge)
-- ============================================================

/-- Lookup of one (iso, year-month) block. -/
def hLookup (db : HourlyDB) (iso ym : String) : Option (List HRec) :=
  (alGet db iso).bind (fun months => alGet months ym)

/-- A block passes the merge: nonempty with at least one non-zero
price. -/
def blockAccepted (records : List HRec) : Bool :=
  !(records.isEmpty) && records.any pNonZero

/-- Number of nonempty all-zero blocks of one iso (counted skipped). -/
def skipCntM (ms : HMonths) : ℕ :=
  (ms.filter (fun e => !(e.2.isEmpty) && !(e.2.any pNonZero))).length

/-- Number of accepted blocks of one iso with no stored block. -/
def addCntM (m0 ms : HMonths) : ℕ :=
  (ms.filter (fun e => blockAccepted e.2 && (alGet m0 e.1).isNone)).length

/-- Number of accepted blocks of one iso replacing a stored block. -/
def updCntM (m0 ms : HMonths) : ℕ :=
  (ms.filter (fun e => blockAccepted e.2 && !(alGet m0 e.1).isNone)).length

/-- Records carried by accepted blocks of one iso. -/
def totCntM (ms : HMonths) : ℕ :=
  ((ms.filter (fun e => blockAccepted e.2)).map (fun e => e.2.length)).sum

/-- What one iso of the inner month fold does: other isos untouched,
absent months untouched, accepted blocks replaced wholesale, rejected
blocks left at the stored value, and the four counters advanced by the
per-iso counts. -/
theorem hourly_inner (iso : String) (ms : HMonths) :
    ∀ (acc : HourlyDB × HourlyStats) (m0 : HMonths),
    alGet acc.1 iso = some m0 → (ms.map Prod.fst).Nodup →
    (∀ iso2, iso2 ≠ iso →
        alGet (ms.foldl (mergeHourlyStepMonth iso) acc).1 iso2
          = alGet acc.1 iso2) ∧
    (∀ ym, ym ∉ ms.map Prod.fst →
        hLookup (ms.foldl (mergeHourlyStepMonth iso) acc).1 iso ym
          = alGet m0 ym) ∧
    (∀ ym block, (ym, block) ∈ ms → blockAccepted block = true →
        hLookup (ms.foldl (mergeHourlyStepMonth iso) acc).1 iso ym
          = some block) ∧
    (∀ ym block, (ym, block) ∈ ms → blockAccepted block = false →
        hLookup (ms.foldl (mergeHourlyStepMonth iso) acc).1 iso ym
          = alGet m0 ym) ∧
    (ms.foldl (mergeHourlyStepMonth iso) acc).2
      = ⟨acc.2.addedMonths + addCntM m0 ms,
         acc.2.updatedMonths + updCntM m0 ms,
         acc.2.totalRecords + totCntM ms,
         acc.2.skippedMonths + skipCntM ms⟩ := by
  induction ms with
  | nil =>
    intro acc m0 hbkt hnd
    refine ⟨fun iso2 h2 => rfl, fun ym hym => ?_, by simp, by simp, ?_⟩
    · rw [List.foldl_nil, hLookup, hbkt]
      rfl
    · simp [addCntM, updCntM, totCntM, skipCntM]
  | cons e ms ih =>
    obtain ⟨eym, ebl⟩ := e
    intro acc m0 hbkt hnd
    rw [List.map_cons, List.nodup_cons] at hnd
    rw [List.foldl_cons]
    by_cases hemp : ebl.isEmpty
    · have hacc : blockAccepted ebl = false := by
        simp [blockAccepted, hemp]
      have hstep : mergeHourlyStepMonth iso acc (eym, ebl) = acc := by
        simp [mergeHourlyStepMonth, hemp]
      rw [hstep]
      obtain ⟨pa, pb, pc, pd, pe⟩ := ih acc m0 hbkt hnd.2
      refine ⟨pa, ?_, ?_, ?_, ?_⟩
      · intro ym hym
        rw [List.map_cons, List.mem_cons] at hym
        push_neg at hym
        exact pb ym hym.2
      · intro ym block hm hba
        rcases List.mem_cons.mp hm with hm | hm
        · injection hm with h1 h2
          subst h1
          subst h2
          rw [hba] at hacc
          cases hacc
        · exact pc ym block hm hba
      · intro ym block hm hba
        rcases List.mem_cons.mp hm with hm | hm
        · injection hm with h1 h2
          subst h1
          subst h2
          exact pb ym hnd.1
        · exact pd ym block hm hba
      · rw [pe]
        have h1 : addCntM m0 ((eym, ebl) :: ms) = addCntM m0 ms := by
          simp [addCntM, List.filter_cons, hacc]
        have h2 : updCntM m0 ((eym, ebl) :: ms) = updCntM m0 ms := by
          simp [updCntM, List.filter_cons, hacc]
        have h3 : totCntM ((eym, ebl) :: ms) = totCntM ms := by
          simp [totCntM, List.filter_cons, hacc]
        have h4 : skipCntM ((eym, ebl) :: ms) = skipCntM ms := by
          simp [skipCntM, List.filter_cons, hemp]
        rw [h1, h2, h3, h4]
    · by_cases hnz : ebl.any pNonZero
      · have hacc : blockAccepted ebl = true := by
          simp [blockAccepted, hemp, hnz]
        have hstep : mergeHourlyStepMonth iso acc (eym, ebl)
            = (alSet acc.1 iso (alSet m0 eym ebl),
               { addedMonths := acc.2.addedMonths
                   + (if alGet m0 eym = none then 1 else 0),
                 updatedMonths := acc.2.updatedMonths
                   + (if alGet m0 eym = none then 0 else 1),
                 totalRecords := acc.2.totalRecords + ebl.length,
                 skippedMonths := acc.2.skippedMonths }) := by
          simp only [mergeHourlyStepMonth]
          rw [if_neg (by simp [hemp]), if_neg (by simp [hnz]), hbkt]
          rfl
        rw [hstep]
        obtain ⟨pa, pb, pc, pd, pe⟩ := ih
          (alSet acc.1 iso (alSet m0 eym ebl),
           { addedMonths := acc.2.addedMonths
               + (if alGet m0 eym = none then 1 else 0),
             updatedMonths := acc.2.updatedMonths
               + (if alGet m0 eym = none then 0 else 1),
             totalRecords := acc.2.totalRecords + ebl.length,
             skippedMonths := acc.2.skippedMonths })
          (alSet m0 eym ebl) (alGet_alSet_self _ _ _) hnd.2
        dsimp only at pa pb pc pd pe
        have hbase : ∀ ym, ym ≠ eym →
            alGet (alSet m0 eym ebl) ym = alGet m0 ym :=
          fun ym h => alGet_alSet_ne _ _ h
        refine ⟨?_, ?_, ?_, ?_, ?_⟩
        · intro iso2 h2
          rw [pa iso2 h2]
          exact alGet_alSet_ne _ _ h2
        · intro ym hym
          rw [List.map_cons, List.mem_cons] at hym
          push_neg at hym
          rw [pb ym hym.2, hbase ym hym.1]
        · intro ym block hm hba
          rcases List.mem_cons.mp hm with hm | hm
          · injection hm with h1 h2
            subst h1
            subst h2
            rw [pb _ hnd.1]
            exact alGet_alSet_self _ _ _
          · exact pc ym block hm hba
        · intro ym block hm hba
          rcases List.mem_cons.mp hm with hm | hm
          · injection hm with h1 h2
            subst h1
            subst h2
            rw [hba] at hacc
            cases hacc
          · have hym : ym ≠ eym := by
              intro hc
              exact hnd.1 (hc ▸ List.mem_map.mpr ⟨(ym, block), hm, rfl⟩)
            rw [pd ym block hm hba, hbase ym hym]
        · rw [pe]
          have hcnt : ∀ q ∈ ms, alGet (alSet m0 eym ebl) q.1
              = alGet m0 q.1 := by
            intro q hq
            refine hbase q.1 (fun hc => hnd.1 ?_)
            exact hc ▸ List.mem_map.mpr ⟨q, hq, rfl⟩
          have h1 : addCntM (alSet m0 eym ebl) ms = addCntM m0 ms := by
            rw [addCntM, addCntM]
            rw [List.filter_congr (fun q hq => by rw [hcnt q hq])]
          have h2 : updCntM (alSet m0 eym ebl) ms = updCntM m0 ms := by
            rw [updCntM, updCntM]
            rw [List.filter_congr (fun q hq => by rw [hcnt q hq])]
          have h3 : addCntM m0 ((eym, ebl) :: ms)
              = (if alGet m0 eym = none then 1 else 0)
                + addCntM m0 ms := by
            rcases halg : alGet m0 eym with _ | v <;>
              simp [addCntM, List.filter_cons, hacc, halg] <;> omega
          have h4 : updCntM m0 ((eym, ebl) :: ms)
              = (if alGet m0 eym = none then 0 else 1)
                + updCntM m0 ms := by
            rcases halg : alGet m0 eym with _ | v <;>
              simp [updCntM, List.filter_cons, hacc, halg] <;> omega
          have h5 : totCntM ((eym, ebl) :: ms)
              = ebl.length + totCntM ms := by
            simp [totCntM, List.filter_cons, hacc]
          have h6 : skipCntM ((eym, ebl) :: ms) = skipCntM ms := by
            simp [skipCntM, List.filter_cons, hnz]
          rw [h1, h2, h3, h4, h5, h6]
          rw [HourlyStats.mk.injEq]
          refine ⟨?_, ?_, ?_, ?_⟩ <;> first | rfl | omega
      · have hacc : blockAccepted ebl = false := by
          simp [blockAccepted, hnz]
        have hstep : mergeHourlyStepMonth iso acc (eym, ebl)
            = (acc.1, { acc.2 with
                skippedMonths := acc.2.skippedMonths + 1 }) := by
          simp only [mergeHourlyStepMonth]
          rw [if_neg (by simp [hemp]), if_pos (by simp [hnz])]
        rw [hstep]
        obtain ⟨pa, pb, pc, pd, pe⟩ := ih
          (acc.1, { acc.2 with
            skippedMonths := acc.2.skippedMonths + 1 }) m0 hbkt hnd.2
        dsimp only at pa pb pc pd pe
        refine ⟨pa, ?_, ?_, ?_, ?_⟩
        · intro ym hym
          rw [List.map_cons, List.mem_cons] at hym
          push_neg at hym
          exact pb ym hym.2
        · intro ym block hm hba
          rcases List.mem_cons.mp hm with hm | hm
          · injection hm with h1 h2
            subst h1
            subst h2
            rw [hba] at hacc
            cases hacc
          · exact pc ym block hm hba
        · intro ym block hm hba
          rcases List.mem_cons.mp hm with hm | hm
          · injection hm with h1 h2
            subst h1
            subst h2
            exact pb ym hnd.1
          · exact pd ym block hm hba
        · rw [pe]
          have h1 : addCntM m0 ((eym, ebl) :: ms) = addCntM m0 ms := by
            simp [addCntM, List.filter_cons, hacc]
          have h2 : updCntM m0 ((eym, ebl) :: ms) = updCntM m0 ms := by
            simp [updCntM, List.filter_cons, hacc]
          have h3 : totCntM ((eym, ebl) :: ms) = totCntM ms := by
            simp [totCntM, List.filter_cons, hacc]
          have h4 : skipCntM ((eym, ebl) :: ms) = 1 + skipCntM ms := by
            simp [skipCntM, List.filter_cons, hemp, hnz]
            omega
          rw [h1, h2, h3, h4]
          rw [HourlyStats.mk.injEq]
          refine ⟨?_, ?_, ?_, ?_⟩ <;> first | rfl | omega

theorem hLookup_congr {db1 db2 : HourlyDB} {iso ym : String}
    (h : alGet db1 iso = alGet db2 iso) :
    hLookup db1 iso ym = hLookup db2 iso ym := by
  rw [hLookup, hLookup, h]

/-- Total number of nonempty all-zero incoming blocks. -/
def countSkipped (inc : HourlyDB) : ℕ :=
  (inc.map (fun p => skipCntM p.2)).sum

/-- Total number of accepted incoming blocks with no stored block. -/
def countAdded (db inc : HourlyDB) : ℕ :=
  (inc.map (fun p => addCntM ((alGet db p.1).getD []) p.2)).sum

/-- Total number of accepted incoming blocks replacing a stored one. -/
def countUpdated (db inc : HourlyDB) : ℕ :=
  (inc.map (fun p => updCntM ((alGet db p.1).getD []) p.2)).sum

/-- Total number of records in accepted incoming blocks. -/
def countTotal (inc : HourlyDB) : ℕ :=
  (inc.map (fun p => totCntM p.2)).sum

/-- What the outer iso fold of mergeHourlyData does. -/
theorem hourly_outer (inc : HourlyDB) :
    ∀ (acc : HourlyDB × HourlyStats),
    (inc.map Prod.fst).Nodup →
    (∀ p ∈ inc, (p.2.map Prod.fst).Nodup) →
    (∀ iso, iso ∉ inc.map Prod.fst →
        alGet (inc.foldl mergeHourlyStepIso acc).1 iso = alGet acc.1 iso) ∧
    (∀ iso ms, (iso, ms) ∈ inc →
      (∀ ym, ym ∉ ms.map Prod.fst →
          hLookup (inc.foldl mergeHourlyStepIso acc).1 iso ym
            = hLookup acc.1 iso ym) ∧
      (∀ ym block, (ym, block) ∈ ms → blockAccepted block = true →
          hLookup (inc.foldl mergeHourlyStepIso acc).1 iso ym
            = some block) ∧
      (∀ ym block, (ym, block) ∈ ms → blockAccepted block = false →
          hLookup (inc.foldl mergeHourlyStepIso acc).1 iso ym
            = hLookup acc.1 iso ym)) ∧
    (inc.foldl mergeHourlyStepIso acc).2
      = ⟨acc.2.addedMonths + countAdded acc.1 inc,
         acc.2.updatedMonths + countUpdated acc.1 inc,
         acc.2.totalRecords + countTotal inc,
         acc.2.skippedMonths + countSkipped inc⟩ := by
  induction inc with
  | nil =>
    intro acc hnd hnd2
    refine ⟨fun iso h => rfl, by simp, ?_⟩
    simp [countAdded, countUpdated, countTotal, countSkipped]
  | cons p inc ih =>
    obtain ⟨iso, ms⟩ := p
    intro acc hnd hnd2
    rw [List.map_cons, List.nodup_cons] at hnd
    rw [List.foldl_cons]
    have key : ∃ db0, mergeHourlyStepIso acc (iso, ms)
          = ms.foldl (mergeHourlyStepMonth iso) (db0, acc.2) ∧
        alGet db0 iso = some ((alGet acc.1 iso).getD []) ∧
        ∀ iso2, iso2 ≠ iso → alGet db0 iso2 = alGet acc.1 iso2 := by
      rcases halg : alGet acc.1 iso with _ | months
      · refine ⟨alSet acc.1 iso [], ?_, ?_, ?_⟩
        · simp only [mergeHourlyStepIso]
          rw [halg]
          rfl
        · rw [alGet_alSet_self]
          rfl
        · exact fun iso2 h2 => alGet_alSet_ne _ _ h2
      · refine ⟨acc.1, ?_, ?_, fun iso2 h2 => rfl⟩
        · simp only [mergeHourlyStepIso]
          rw [halg]
          rfl
        · rw [halg]
          rfl
    obtain ⟨db0, hstep, hdb0a, hdb0b⟩ := key
    rw [hstep]
    obtain ⟨ia, ib, ic, id_, ie⟩ := hourly_inner iso ms (db0, acc.2)
      ((alGet acc.1 iso).getD []) hdb0a
      (hnd2 (iso, ms) (List.mem_cons_self _ _))
    obtain ⟨oa, ob, oc⟩ := ih (ms.foldl (mergeHourlyStepMonth iso)
      (db0, acc.2)) hnd.2 (fun q hq => hnd2 q (List.mem_cons_of_mem _ hq))
    have hmid : ∀ iso2, iso2 ≠ iso →
        alGet (ms.foldl (mergeHourlyStepMonth iso) (db0, acc.2)).1 iso2
          = alGet acc.1 iso2 := by
      intro iso2 h2
      rw [ia iso2 h2, hdb0b iso2 h2]
    have hm0 : ∀ ym, alGet ((alGet acc.1 iso).getD []) ym
        = hLookup acc.1 iso ym := by
      intro ym
      rcases halg : alGet acc.1 iso with _ | months
      · rw [hLookup, halg]
        rfl
      · rw [hLookup, halg]
        rfl
    refine ⟨?_, ?_, ?_⟩
    · intro iso2 h2
      rw [List.map_cons, List.mem_cons] at h2
      push_neg at h2
      rw [oa iso2 h2.2, hmid iso2 h2.1]
    · intro iso2 ms2 hm
      rcases List.mem_cons.mp hm with hm | hm
      · injection hm with h1 h2
        rw [h1, h2]
        have hrest : alGet (inc.foldl mergeHourlyStepIso
              (ms.foldl (mergeHourlyStepMonth iso) (db0, acc.2))).1 iso
            = alGet (ms.foldl (mergeHourlyStepMonth iso) (db0, acc.2)).1
                iso := oa iso hnd.1
        refine ⟨?_, ?_, ?_⟩
        · intro ym hym
          rw [hLookup_congr hrest, ib ym hym, hm0 ym]
        · intro ym block hb hba
          rw [hLookup_congr hrest, ic ym block hb hba]
        · intro ym block hb hba
          rw [hLookup_congr hrest, id_ ym block hb hba, hm0 ym]
      · have hne : iso2 ≠ iso := by
          intro hc
          exact hnd.1 (hc ▸ List.mem_map.mpr ⟨(iso2, ms2), hm, rfl⟩)
        obtain ⟨qa, qb, qc⟩ := ob iso2 ms2 hm
        refine ⟨?_, ?_, ?_⟩
        · intro ym hym
          rw [qa ym hym, hLookup_congr (hmid iso2 hne)]
        · intro ym block hb hba
          exact qb ym block hb hba
        · intro ym block hb hba
          rw [qc ym block hb hba, hLookup_congr (hmid iso2 hne)]
    · rw [oc, ie]
      dsimp only
      have hcnt : ∀ f : HMonths → HMonths → ℕ,
          (inc.map (fun q => f ((alGet (ms.foldl (mergeHourlyStepMonth
            iso) (db0, acc.2)).1 q.1).getD []) q.2)).sum
          = (inc.map (fun q => f ((alGet acc.1 q.1).getD []) q.2)).sum := by
        intro f
        refine congrArg List.sum (List.map_congr_left ?_)
        intro q hq
        have hne : q.1 ≠ iso := by
          intro hc
          exact hnd.1 (hc ▸ List.mem_map.mpr ⟨q, hq, rfl⟩)
        rw [hmid q.1 hne]
      rw [countAdded, countAdded, countUpdated, countUpdated]
      rw [hcnt addCntM, hcnt updCntM]
      rw [countTotal, countTotal, countSkipped, countSkipped]
      simp only [List.map_cons, List.sum_cons]
      rw [HourlyStats.mk.injEq]
      refine ⟨?_, ?_, ?_, ?_⟩ <;> omega

theorem alGet_eq_none_iff {β : Type} (l : List (String × β)) (k : String) :
    alGet l k = none ↔ k ∉ l.map Prod.fst := by
  induction l with
  | nil => simp [alGet_nil]
  | cons p ps ih =>
    by_cases hp : p.1 == k
    · have hpk : p.1 = k := by simpa [beq_iff_eq] using hp
      simp [alGet_cons, hp, hpk]
    · have hpk : p.1 ≠ k := by simpa [beq_iff_eq] using hp
      have hkp : ¬(k = p.1) := fun hc => hpk hc.symm
      simp [alGet_cons, hp, ih, hkp]

theorem alGet_mem {β : Type} {l : List (String × β)} {k : String} {v : β}
    (h : alGet l k = some v) : (k, v) ∈ l := by
  induction l with
  | nil => simp [alGet_nil] at h
  | cons p ps ih =>
    by_cases hp : p.1 == k
    · have hpk : p.1 = k := by simpa [beq_iff_eq] using hp
      rw [alGet_cons, if_pos hp] at h
      injection h with h
      subst h
      subst hpk
      exact List.mem_cons_self _ _
    · rw [alGet_cons, if_neg hp] at h
      exact List.mem_cons_of_mem _ (ih h)

/-- Claim C6 fails as stated: an empty incoming block vacuously has
every price zero, yet it is passed over without being counted as
skipped (skippedMonths stays 0 where the claim demands 1). -/
theorem claim_C6_counterexample :
    mergeHourlyData (some []) (some [("ISONE", [("2025-01", [])])])
      = (some [("ISONE", [])], ⟨0, 0, 0, 0⟩) ∧
    (∀ r ∈ ([] : List HRec), r.p = some 0) ∧
    (0 : ℕ) ≠ 1 := by
  refine ⟨by rfl, by simp, by decide⟩

/-- Claim C6, amended: over unique-keyed incoming payloads (JS object
keys are unique): (1) a NONEMPTY incoming block whose prices are all
zero leaves the stored block for its key untouched and is counted as
skipped (an empty block also leaves the store untouched but is passed
over without being counted); (2) an incoming block with at least one
non-zero price replaces the stored block wholesale, counted as added
when no prior block existed and as updated otherwise; (3) every key not
present in the incoming payload keeps its stored block unchanged. -/
theorem claim_C6 (db inc : HourlyDB)
    (hIso : (inc.map Prod.fst).Nodup)
    (hYm : ∀ p ∈ inc, (p.2.map Prod.fst).Nodup) :
    (∀ iso ym block, hLookup inc iso ym = some block → block ≠ [] →
        (∀ r ∈ block, r.p = some 0) →
        hLookup ((mergeHourlyData (some db) (some inc)).1.getD []) iso ym
          = hLookup db iso ym) ∧
    (∀ iso ym block, hLookup inc iso ym = some block →
        (∃ r ∈ block, ¬(r.p = some 0)) →
        hLookup ((mergeHourlyData (some db) (some inc)).1.getD []) iso ym
          = some block) ∧
    (∀ iso ym, hLookup inc iso ym = none →
        hLookup ((mergeHourlyData (some db) (some inc)).1.getD []) iso ym
          = hLookup db iso ym) ∧
    (mergeHourlyData (some db) (some inc)).2
      = ⟨countAdded db inc, countUpdated db inc, countTotal inc,
         countSkipped inc⟩ := by
  obtain ⟨oa, ob, oc⟩ := hourly_outer inc (db, ⟨0, 0, 0, 0⟩) hIso hYm
  have hres1 : (mergeHourlyData (some db) (some inc)).1.getD []
      = (inc.foldl mergeHourlyStepIso (db, ⟨0, 0, 0, 0⟩)).1 := rfl
  have hres2 : (mergeHourlyData (some db) (some inc)).2
      = (inc.foldl mergeHourlyStepIso (db, ⟨0, 0, 0, 0⟩)).2 := rfl
  refine ⟨?_, ?_, ?_, ?_⟩
  · intro iso ym block hlk hne hz
    rw [hLookup] at hlk
    rcases hiso : alGet inc iso with _ | ms
    · rw [hiso] at hlk
      cases hlk
    · rw [hiso] at hlk
      simp only [Option.bind] at hlk
      have hmem := alGet_mem hiso
      have hbm := alGet_mem hlk
      have hba : blockAccepted block = false := by
        have : block.any pNonZero = false := by
          rw [List.any_eq_false]
          intro r hr
          simp [pNonZero, hz r hr]
        simp [blockAccepted, this]
      rw [hres1, (ob iso ms hmem).2.2 ym block hbm hba]
  · intro iso ym block hlk hw
    rw [hLookup] at hlk
    rcases hiso : alGet inc iso with _ | ms
    · rw [hiso] at hlk
      cases hlk
    · rw [hiso] at hlk
      simp only [Option.bind] at hlk
      have hmem := alGet_mem hiso
      have hbm := alGet_mem hlk
      obtain ⟨r, hr, hrp⟩ := hw
      have hba : blockAccepted block = true := by
        have h1 : block.isEmpty = false := by
          cases block with
          | nil => cases hr
          | cons x xs => rfl
        have h2 : block.any pNonZero = true := by
          rw [List.any_eq_true]
          exact ⟨r, hr, by simp [pNonZero, hrp]⟩
        simp [blockAccepted, h1, h2]
      rw [hres1, (ob iso ms hmem).2.1 ym block hbm hba]
  · intro iso ym hlk
    rw [hLookup] at hlk
    rcases hiso : alGet inc iso with _ | ms
    · have hnin : iso ∉ inc.map Prod.fst := (alGet_eq_none_iff _ _).mp hiso
      rw [hres1]
      exact hLookup_congr (oa iso hnin)
    · rw [hiso] at hlk
      simp only [Option.bind] at hlk
      have hnin : ym ∉ ms.map Prod.fst := (alGet_eq_none_iff _ _).mp hlk
      have hmem := alGet_mem hiso
      rw [hres1, (ob iso ms hmem).1 ym hnin]
  · rw [hres2, oc]
    simp

/-- Sample database for the hourly merge witness. -/
def c6exDb : HourlyDB :=
  [("ISONE", [("2025-01", [⟨some "a", some 3, some "CT"⟩]),
              ("2025-02", [⟨some "b", some 4, some "CT"⟩])])]

/-- Sample incoming payload for the hourly merge witness: one accepted
replacement block, one nonempty all-zero block, one fresh block. -/
def c6exInc : HourlyDB :=
  [("ISONE", [("2025-01", [⟨some "c", some 7, some "CT"⟩]),
              ("2025-03", [⟨some "d", some 0, some "CT"⟩])]),
   ("PJM", [("2025-01", [⟨some "e", some 9, some "AECO"⟩])])]

/-- Witness for claim C6 at a concrete input. -/
theorem claim_C6_witness :
    ((c6exInc.map Prod.fst).Nodup ∧
     (∀ p ∈ c6exInc, (p.2.map Prod.fst).Nodup)) ∧
    (mergeHourlyData (some c6exDb) (some c6exInc)).2
      = ⟨countAdded c6exDb c6exInc, countUpdated c6exDb c6exInc,
         countTotal c6exInc, countSkipped c6exInc⟩ :=
  ⟨⟨by decide, by decide⟩,
   (claim_C6 c6exDb c6exInc (by decide) (by decide)).2.2.2⟩

-- ============================================================
-- CLAIM C3 (monthly merge idempotence)
-- ============================================================

/-- The normalized average price the merge compares against. -/
def mAvg (r : MRec) : ℚ := (normalizeMonthly r).avg_da_lmp.getD 0

/-- A stored record on which a second encounter of r does not act: the
zero-price guard fires, or the price difference is within epsilon. -/
def stableFor (e r : MRec) : Prop :=
  (mAvg r = 0 ∧ optGtZero e.avg_da_lmp = true) ∨
  ¬(|numOr e.avg_da_lmp 0 - mAvg r| > 1 / 10000)

/-- The bucket of r holds a record with the key of r on which a second
encounter of r does not act. -/
def StableM (db : MonthlyDB) (r : MRec) : Prop :=
  ∃ lst, alGet db r.iso = some lst ∧
    ∃ e ∈ lst, monthlyKey e = monthlyKey r ∧ stableFor e r

/-- Every bucket of the database has pairwise distinct keys. -/
def NodAll (db : MonthlyDB) : Prop :=
  ∀ p ∈ db, ((p.2).map monthlyKey).Nodup

theorem numOr_some_zero (v : ℚ) : numOr (some v) 0 = v := by
  by_cases h : v = 0 <;> simp [numOr, h]

theorem normalizeMonthly_avg (r : MRec) :
    (normalizeMonthly r).avg_da_lmp = some (mAvg r) := rfl

theorem stableFor_normalized (r : MRec) :
    stableFor (normalizeMonthly r) r := by
  refine Or.inr ?_
  rw [normalizeMonthly_avg, numOr_some_zero, sub_self, abs_zero]
  norm_num

theorem mem_alSet {β : Type} {db : List (String × β)} {k : String}
    {v : β} {p : String × β} (h : p ∈ alSet db k v) :
    p ∈ db ∨ p = (k, v) := by
  induction db with
  | nil =>
    simp [alSet] at h
    exact Or.inr h
  | cons q qs ih =>
    by_cases hq : q.1 == k
    · rw [alSet, if_pos hq] at h
      rcases List.mem_cons.mp h with h | h
      · exact Or.inr h
      · exact Or.inl (List.mem_cons_of_mem _ h)
    · rw [alSet, if_neg hq] at h
      rcases List.mem_cons.mp h with h | h
      · exact Or.inl (h ▸ List.mem_cons_self _ _)
      · rcases ih h with h | h
        · exact Or.inl (List.mem_cons_of_mem _ h)
        · exact Or.inr h

theorem NodAll_alSet {db : MonthlyDB} {k : String} {v : List MRec}
    (hnd : NodAll db) (hv : (v.map monthlyKey).Nodup) :
    NodAll (alSet db k v) := by
  intro p hp
  rcases mem_alSet hp with hp | hp
  · exact hnd p hp
  · rw [hp]
    exact hv

theorem list_map_set {α β : Type} (f : α → β) :
    ∀ (l : List α) (i : ℕ) (x : α),
    (l.set i x).map f = (l.map f).set i (f x)
  | [], _, _ => rfl
  | a :: l, 0, x => rfl
  | a :: l, i + 1, x => by
    rw [List.set_cons_succ, List.map_cons, List.map_cons,
        list_map_set f l i x, List.set_cons_succ]

theorem list_set_eq_self {α : Type} :
    ∀ (l : List α) (i : ℕ) (x d : α), l.getD i d = x → i < l.length →
    l.set i x = l
  | [], i, x, d, _, hlen => by simp at hlen
  | a :: l, 0, x, d, hget, _ => by
    rw [List.getD_cons_zero] at hget
    rw [List.set_cons_zero, hget]
  | a :: l, i + 1, x, d, hget, hlen => by
    rw [List.getD_cons_succ] at hget
    rw [List.set_cons_succ,
        list_set_eq_self l i x d hget (by simpa using hlen)]

theorem list_mem_set_self {α : Type} :
    ∀ (l : List α) (i : ℕ) (x : α), i < l.length → x ∈ l.set i x
  | [], i, x, hlen => by simp at hlen
  | a :: l, 0, x, _ => by
    rw [List.set_cons_zero]
    exact List.mem_cons_self _ _
  | a :: l, i + 1, x, hlen => by
    rw [List.set_cons_succ]
    exact List.mem_cons_of_mem _
      (list_mem_set_self l i x (by simpa using hlen))

instance : IsTotal MRec mrecLE :=
  ⟨fun a b => le_total (mrecKey a) (mrecKey b)⟩

instance : IsTrans MRec mrecLE :=
  ⟨fun _ _ _ hab hbc => le_trans hab hbc⟩

theorem sortIsoBuckets_idem (db : MonthlyDB) :
    sortIsoBuckets (sortIsoBuckets db) = sortIsoBuckets db := by
  rw [sortIsoBuckets, sortIsoBuckets, List.map_map]
  refine List.map_congr_left ?_
  intro p _
  simp only [Function.comp]
  rw [List.Sorted.insertionSort_eq (List.sorted_insertionSort mrecLE p.2)]

theorem NodAll_sortIsoBuckets {db : MonthlyDB} (hnd : NodAll db) :
    NodAll (sortIsoBuckets db) := by
  intro p hp
  rw [sortIsoBuckets] at hp
  obtain ⟨q, hq, rfl⟩ := List.mem_map.mp hp
  have := hnd q hq
  dsimp only
  exact (((List.perm_insertionSort mrecLE q.2).map monthlyKey).nodup_iff).mpr
    this

theorem StableM_sortIsoBuckets {db : MonthlyDB} {r : MRec}
    (hs : StableM db r) : StableM (sortIsoBuckets db) r := by
  obtain ⟨lst, hb, e, he, hk, hst⟩ := hs
  refine ⟨lst.insertionSort mrecLE, ?_, e, ?_, hk, hst⟩
  · rw [alGet_sortIsoBuckets, hb]
    rfl
  · exact (List.mem_insertionSort mrecLE).mpr he

/-- One merge step of a key-preserved record: bucket keys stay distinct,
the record key becomes stable for its bucket, and stability of records
with other keys survives. -/
theorem merge_step_main (S : MonthlyDB) (stats : MergeStats) (r : MRec)
    (h1r : monthlyKey (normalizeMonthly r) = monthlyKey r)
    (hnd : NodAll S) :
    NodAll (mergeMonthlyStep (S, stats) r).1 ∧
    StableM (mergeMonthlyStep (S, stats) r).1 r ∧
    (∀ r0, monthlyKey r0 ≠ monthlyKey r → StableM S r0 →
        StableM (mergeMonthlyStep (S, stats) r).1 r0) := by
  rcases halg : alGet S r.iso with _ | lst
  · -- the iso bucket is created empty, then the record is appended
    have hstep : mergeMonthlyStep (S, stats) r
        = (alSet (alSet S r.iso []) r.iso [normalizeMonthly r],
           { stats with added := stats.added + 1 }) := by
      simp only [mergeMonthlyStep]
      rw [halg]
      rw [if_pos rfl, alGet_alSet_self]
      rfl
    rw [hstep]
    refine ⟨?_, ?_, ?_⟩
    · exact NodAll_alSet (NodAll_alSet hnd (by simp)) (by simp)
    · exact ⟨[normalizeMonthly r], alGet_alSet_self _ _ _,
        normalizeMonthly r, List.mem_singleton_self _, h1r,
        stableFor_normalized r⟩
    · intro r0 hk0 hs0
      obtain ⟨lst0, hb0, e0, he0, hke0, hst0⟩ := hs0
      by_cases hiso : r0.iso = r.iso
      · rw [hiso, halg] at hb0
        cases hb0
      · exact ⟨lst0, by
          rw [alGet_alSet_ne _ _ hiso, alGet_alSet_ne _ _ hiso]
          exact hb0, e0, he0, hke0, hst0⟩
  · have hmem : (r.iso, lst) ∈ S := alGet_mem halg
    have hndl : (lst.map monthlyKey).Nodup := hnd _ hmem
    rcases hidx : findIdxO (fun x => monthlyKey x == monthlyKey r) lst
        with _ | i
    · -- no record with this key: append the normalized record
      have hstep : mergeMonthlyStep (S, stats) r
          = (alSet S r.iso (lst ++ [normalizeMonthly r]),
             { stats with added := stats.added + 1 }) := by
        simp only [mergeMonthlyStep]
        rw [halg, if_neg (Option.some_ne_none lst), halg]
        simp only [Option.getD_some]
        rw [hidx]
      rw [hstep]
      have hnotin : monthlyKey r ∉ lst.map monthlyKey := by
        intro hc
        obtain ⟨x, hx, hkx⟩ := List.mem_map.mp hc
        have := findIdxO_eq_none.mp hidx x hx
        rw [hkx] at this
        simp at this
      have happ : ((lst ++ [normalizeMonthly r]).map monthlyKey).Nodup := by
        rw [List.map_append, List.nodup_append]
        refine ⟨hndl, by simp, ?_⟩
        intro a ha
        simp only [List.map_cons, List.map_nil, List.mem_singleton]
        intro hc
        rw [hc, h1r] at ha
        exact hnotin ha
      refine ⟨NodAll_alSet hnd happ, ?_, ?_⟩
      · exact ⟨lst ++ [normalizeMonthly r], alGet_alSet_self _ _ _,
          normalizeMonthly r,
          List.mem_append_right _ (List.mem_singleton_self _), h1r,
          stableFor_normalized r⟩
      · intro r0 hk0 hs0
        obtain ⟨lst0, hb0, e0, he0, hke0, hst0⟩ := hs0
        by_cases hiso : r0.iso = r.iso
        · rw [hiso, halg] at hb0
          injection hb0 with hb0
          subst hb0
          exact ⟨lst ++ [normalizeMonthly r], by
            rw [hiso, alGet_alSet_self], e0,
            List.mem_append_left _ he0, hke0, hst0⟩
        · exact ⟨lst0, by rw [alGet_alSet_ne _ _ hiso]; exact hb0,
            e0, he0, hke0, hst0⟩
    · -- a record with this key exists at index i
      have hi := findIdxO_lt_length hidx
      have hgd := findIdxO_getD mrecDefault hidx
      have hked : monthlyKey (lst.getD i mrecDefault) = monthlyKey r := by
        simpa [beq_iff_eq] using hgd.1
      by_cases hguard : (normalizeMonthly r).avg_da_lmp.getD 0 = 0 ∧
          optGtZero (lst.getD i mrecDefault).avg_da_lmp = true
      · -- zero-price guard: unchanged
        have hstep : mergeMonthlyStep (S, stats) r
            = (S, { stats with unchanged := stats.unchanged + 1 }) := by
          simp only [mergeMonthlyStep]
          rw [halg, if_neg (Option.some_ne_none lst), halg]
          simp only [Option.getD_some]
          rw [hidx]
          dsimp only
          rw [if_pos hguard]
        rw [hstep]
        exact ⟨hnd, ⟨lst, halg, lst.getD i mrecDefault, hgd.2, hked,
          Or.inl hguard⟩,
          fun r0 _ hs0 => hs0⟩
      · by_cases hdiff : |numOr (lst.getD i mrecDefault).avg_da_lmp 0
            - (normalizeMonthly r).avg_da_lmp.getD 0| > 1 / 10000
        · -- price changed: the record at i is replaced by the
          -- normalized record, which carries the same key
          have hstep : mergeMonthlyStep (S, stats) r
              = (alSet S r.iso (lst.set i (normalizeMonthly r)),
                 { stats with updated := stats.updated + 1 }) := by
            simp only [mergeMonthlyStep]
            rw [halg, if_neg (Option.some_ne_none lst), halg]
            simp only [Option.getD_some]
            rw [hidx]
            dsimp only
            rw [if_neg hguard, if_pos hdiff]
          rw [hstep]
          have hkeys : (lst.set i (normalizeMonthly r)).map monthlyKey
              = lst.map monthlyKey := by
            rw [list_map_set]
            refine list_set_eq_self _ _ _ (monthlyKey mrecDefault) ?_
              (by simpa using hi)
            have : (lst.map monthlyKey).getD i (monthlyKey mrecDefault)
                = monthlyKey (lst.getD i mrecDefault) := by
              rw [List.getD_eq_getElem?_getD, List.getD_eq_getElem?_getD,
                  List.getElem?_map]
              cases lst[i]? <;> rfl
            rw [this, hked, h1r]
          refine ⟨NodAll_alSet hnd (by rw [hkeys]; exact hndl), ?_, ?_⟩
          · exact ⟨lst.set i (normalizeMonthly r), alGet_alSet_self _ _ _,
              normalizeMonthly r, list_mem_set_self _ _ _ hi, h1r,
              stableFor_normalized r⟩
          · intro r0 hk0 hs0
            obtain ⟨lst0, hb0, e0, he0, hke0, hst0⟩ := hs0
            by_cases hiso : r0.iso = r.iso
            · rw [hiso, halg] at hb0
              injection hb0 with hb0
              subst hb0
              refine ⟨lst.set i (normalizeMonthly r), by
                rw [hiso, alGet_alSet_self], e0, ?_, hke0, hst0⟩
              refine @mem_set_of_ne MRec lst i (normalizeMonthly r) e0
                mrecDefault he0 ?_
              intro hc
              rw [hc] at hked
              rw [hked] at hke0
              exact hk0 hke0.symm
            · exact ⟨lst0, by rw [alGet_alSet_ne _ _ hiso]; exact hb0,
                e0, he0, hke0, hst0⟩
        · -- difference within epsilon: unchanged
          have hstep : mergeMonthlyStep (S, stats) r
              = (S, { stats with unchanged := stats.unchanged + 1 }) := by
            simp only [mergeMonthlyStep]
            rw [halg, if_neg (Option.some_ne_none lst), halg]
            simp only [Option.getD_some]
            rw [hidx]
            dsimp only
            rw [if_neg hguard, if_neg hdiff]
          rw [hstep]
          exact ⟨hnd, ⟨lst, halg, lst.getD i mrecDefault, hgd.2, hked,
            Or.inr hdiff⟩,
            fun r0 _ hs0 => hs0⟩

/-- Folding the merge step over key-preserved records with pairwise
distinct keys keeps bucket keys distinct, makes every processed record
stable, and preserves stability of records with keys outside the list. -/
theorem merge_fold_main (recs : List MRec) :
    ∀ acc : MonthlyDB × MergeStats,
    (∀ r ∈ recs, monthlyKey (normalizeMonthly r) = monthlyKey r) →
    (recs.map monthlyKey).Nodup →
    NodAll acc.1 →
    NodAll (recs.foldl mergeMonthlyStep acc).1 ∧
    (∀ r ∈ recs, StableM (recs.foldl mergeMonthlyStep acc).1 r) ∧
    (∀ r0, (∀ r ∈ recs, monthlyKey r0 ≠ monthlyKey r) → StableM acc.1 r0 →
        StableM (recs.foldl mergeMonthlyStep acc).1 r0) := by
  induction recs with
  | nil =>
    intro acc _ _ hnd
    exact ⟨hnd, by simp, fun r0 _ h => h⟩
  | cons r rs ih =>
    intro acc h1 h2 hnd
    rw [List.foldl_cons]
    obtain ⟨snd, sst, spres⟩ := merge_step_main acc.1 acc.2 r
      (h1 r (List.mem_cons_self r rs)) hnd
    have h1s : ∀ x ∈ rs, monthlyKey (normalizeMonthly x) = monthlyKey x :=
      fun x hx => h1 x (List.mem_cons_of_mem _ hx)
    have h2s : (rs.map monthlyKey).Nodup := by
      simp only [List.map_cons, List.nodup_cons] at h2
      exact h2.2
    have hknot : monthlyKey r ∉ rs.map monthlyKey := by
      simp only [List.map_cons, List.nodup_cons] at h2
      exact h2.1
    obtain ⟨ind, ist, ipres⟩ := ih (mergeMonthlyStep acc r) h1s h2s snd
    refine ⟨ind, ?_, ?_⟩
    · intro x hx
      rcases List.mem_cons.mp hx with hx | hx
      · subst hx
        refine ipres x ?_ sst
        intro y hy hc
        exact hknot (by rw [hc]; exact List.mem_map_of_mem _ hy)
      · exact ist x hx
    · intro r0 hne hs0
      refine ipres r0 (fun y hy => hne y (List.mem_cons_of_mem _ hy)) ?_
      exact spres r0 (hne r (List.mem_cons_self r rs)) hs0

/-- On a database with distinct bucket keys, merging a record that is
already stable for its bucket changes nothing and counts it unchanged. -/
theorem merge_step_stable (S : MonthlyDB) (stats : MergeStats) (r : MRec)
    (hnd : NodAll S) (hs : StableM S r) :
    mergeMonthlyStep (S, stats) r
      = (S, { stats with unchanged := stats.unchanged + 1 }) := by
  obtain ⟨lst, halg, e, he, hke, hst⟩ := hs
  rcases hidx : findIdxO (fun x => monthlyKey x == monthlyKey r) lst
      with _ | i
  · exfalso
    have := findIdxO_eq_none.mp hidx e he
    rw [hke] at this
    simp at this
  · have hgd := findIdxO_getD mrecDefault hidx
    have hked : monthlyKey (lst.getD i mrecDefault) = monthlyKey r := by
      simpa [beq_iff_eq] using hgd.1
    have hee : lst.getD i mrecDefault = e := by
      have hinj := List.inj_on_of_nodup_map (hnd _ (alGet_mem halg))
      exact hinj hgd.2 he (hked.trans hke.symm)
    simp only [mergeMonthlyStep]
    rw [halg, if_neg (Option.some_ne_none lst), halg]
    simp only [Option.getD_some]
    rw [hidx]
    dsimp only
    rw [hee]
    rcases hst with ⟨hz, hpos⟩ | hsm
    · have hz2 : (normalizeMonthly r).avg_da_lmp.getD 0 = 0 := hz
      rw [if_pos ⟨hz2, hpos⟩]
    · by_cases hg : (normalizeMonthly r).avg_da_lmp.getD 0 = 0 ∧
          optGtZero e.avg_da_lmp = true
      · rw [if_pos hg]
      · have hsm2 : ¬(|numOr e.avg_da_lmp 0
            - (normalizeMonthly r).avg_da_lmp.getD 0| > 1 / 10000) := hsm
        rw [if_neg hg, if_neg hsm2]

/-- A whole second pass over records that are all stable is the
identity on the database and counts every record unchanged. -/
theorem merge_fold_stable (recs : List MRec) :
    ∀ (S : MonthlyDB) (stats : MergeStats), NodAll S →
    (∀ r ∈ recs, StableM S r) →
    recs.foldl mergeMonthlyStep (S, stats)
      = (S, { stats with unchanged := stats.unchanged + recs.length }) := by
  induction recs with
  | nil =>
    intro S stats _ _
    simp
  | cons r rs ih =>
    intro S stats hnd hs
    rw [List.foldl_cons,
        merge_step_stable S stats r hnd (hs r (List.mem_cons_self r rs)),
        ih S _ hnd (fun x hx => hs x (List.mem_cons_of_mem _ hx))]
    have harith : stats.unchanged + 1 + rs.length
        = stats.unchanged + (r :: rs).length := by
      rw [List.length_cons]
      omega
    rw [harith]

/-- A monthly record whose month field needs no zero padding: the
normalization keeps its merge key, so merging it is idempotent. -/
def c3wRec : MRec :=
  { iso := "PJM", zone := "Z", zone_id := none, year := "2024",
    month := "01", avg_da_lmp := some 0, lmp := none, min_price := none,
    max_price := none, record_count := none }

/-- An existing stored record with the same key as c3wRec and a strictly
positive price, so the zero-price guard protects it on every pass. -/
def c3wExist : MRec :=
  { iso := "PJM", zone := "Z", zone_id := some "Z", year := "2024",
    month := "01", avg_da_lmp := some 42, lmp := none,
    min_price := some 42, max_price := some 42, record_count := some 1 }

/-- A database holding only c3wExist in the PJM bucket. -/
def c3wDb : MonthlyDB := [("PJM", [c3wExist])]

/-- A monthly record as produced by the repository fetchers: a
single-digit month. Normalization zero-pads the month, so the stored
record carries a different merge key than the incoming record. -/
def c3exRec : MRec :=
  { iso := "PJM", zone := "Z", zone_id := none, year := "2024",
    month := "1", avg_da_lmp := some 5, lmp := none, min_price := none,
    max_price := none, record_count := none }

/-- Counterexample to claim C3 as stated: merging the single record
c3exRec into an empty database and then merging the same list again
reports the record as added a second time (stats (1, 0, 0), not all
unchanged) and the database differs from the first result. The cause:
the merge key of the normalized record differs from the merge key of
the raw record, because normalization zero-pads the month while
monthlyKey reads the raw field. -/
theorem claim_C3_counterexample :
    (mergeMonthlyData (mergeMonthlyData [] [c3exRec]).1 [c3exRec]).2
      = ⟨1, 0, 0⟩ ∧
    (mergeMonthlyData (mergeMonthlyData [] [c3exRec]).1 [c3exRec]).1
      ≠ (mergeMonthlyData [] [c3exRec]).1 ∧
    monthlyKey (normalizeMonthly c3exRec) ≠ monthlyKey c3exRec := by
  refine ⟨rfl, ?_, by decide⟩
  intro hc
  have hlen : ((alGet (mergeMonthlyData (mergeMonthlyData [] [c3exRec]).1
        [c3exRec]).1 "PJM").getD []).length
      = ((alGet (mergeMonthlyData [] [c3exRec]).1 "PJM").getD []).length := by
    rw [hc]
  have hr : ((alGet (mergeMonthlyData [] [c3exRec]).1 "PJM").getD
      []).length = 1 := by decide
  have hl : ((alGet (mergeMonthlyData (mergeMonthlyData [] [c3exRec]).1
        [c3exRec]).1 "PJM").getD []).length = 2 := by
    have hS : alGet ([c3exRec].foldl mergeMonthlyStep
        ((mergeMonthlyData [] [c3exRec]).1, (⟨0, 0, 0⟩ : MergeStats))).1
          "PJM"
        = some [normalizeMonthly c3exRec, normalizeMonthly c3exRec] := by
      decide
    show ((alGet (sortIsoBuckets ([c3exRec].foldl mergeMonthlyStep
        ((mergeMonthlyData [] [c3exRec]).1,
          (⟨0, 0, 0⟩ : MergeStats))).1) "PJM").getD []).length = 2
    rw [alGet_sortIsoBuckets, hS]
    simp [List.length_insertionSort]
  rw [hl, hr] at hlen
  exact absurd hlen (by decide)

/-- Claim C3: amended merge idempotence. The raw claim fails because
monthlyKey reads the raw month while normalization zero-pads it, and
because duplicate incoming keys fight each other. Under the amendments
that every incoming record keeps its merge key under normalization,
that incoming merge keys are pairwise distinct, and that every database
bucket holds pairwise distinct merge keys, a second run of
mergeMonthlyData with the same records returns the database of the
first run unchanged and classifies every record as unchanged (zero
added, zero updated). -/
theorem claim_C3 (db : MonthlyDB) (recs : List MRec)
    (h1 : ∀ r ∈ recs, monthlyKey (normalizeMonthly r) = monthlyKey r)
    (h2 : (recs.map monthlyKey).Nodup)
    (h3 : NodAll db) :
    (mergeMonthlyData (mergeMonthlyData db recs).1 recs).1
      = (mergeMonthlyData db recs).1 ∧
    (mergeMonthlyData (mergeMonthlyData db recs).1 recs).2
      = ⟨0, 0, recs.length⟩ := by
  obtain ⟨ndF, stF, -⟩ := merge_fold_main recs
    (db, (⟨0, 0, 0⟩ : MergeStats)) h1 h2 h3
  have ndD : NodAll (sortIsoBuckets
      (recs.foldl mergeMonthlyStep (db, ⟨0, 0, 0⟩)).1) :=
    NodAll_sortIsoBuckets ndF
  have stD : ∀ r ∈ recs, StableM (sortIsoBuckets
      (recs.foldl mergeMonthlyStep (db, ⟨0, 0, 0⟩)).1) r :=
    fun r hr => StableM_sortIsoBuckets (stF r hr)
  have hfold := merge_fold_stable recs
    (sortIsoBuckets (recs.foldl mergeMonthlyStep (db, ⟨0, 0, 0⟩)).1)
    ⟨0, 0, 0⟩ ndD stD
  constructor
  · show (sortIsoBuckets (recs.foldl mergeMonthlyStep
        (sortIsoBuckets (recs.foldl mergeMonthlyStep
          (db, ⟨0, 0, 0⟩)).1, ⟨0, 0, 0⟩)).1) = _
    rw [hfold]
    exact sortIsoBuckets_idem _
  · show (recs.foldl mergeMonthlyStep
        (sortIsoBuckets (recs.foldl mergeMonthlyStep
          (db, ⟨0, 0, 0⟩)).1, ⟨0, 0, 0⟩)).2 = _
    rw [hfold]
    simp

/-- Witness for claim C3 on a concrete input: a one-bucket database and
one incoming record with an already padded month and zero price; the
hypotheses hold and the double merge is the identity with stats
(0, 0, 1). -/
theorem claim_C3_witness :
    (mergeMonthlyData (mergeMonthlyData c3wDb [c3wRec]).1 [c3wRec]).1
      = (mergeMonthlyData c3wDb [c3wRec]).1 ∧
    (mergeMonthlyData (mergeMonthlyData c3wDb [c3wRec]).1 [c3wRec]).2
      = ⟨0, 0, 1⟩ :=
  claim_C3 c3wDb [c3wRec]
    (by
      intro r hr
      rw [List.mem_singleton] at hr
      subst hr
      rfl)
    (by simp)
    (by
      intro p hp
      simp only [c3wDb, List.mem_singleton] at hp
      subst hp
      simp)

end SES
